import Mathlib

/-!
Verification development for the agentcraft backend's chat/AI subsystem.

The definitions below are a shallow embedding of the TypeScript sources:
  - `gemini.service.ts` (GeminiService: validateInput, buildConversationContext,
    callGeminiAPI, processGeminiResponse, cleanResponse, checkHealth,
    updateConfig, handleGeminiError),
  - `chat.service.ts` (ChatService: sendMessageToThread, getChatResponse,
    validateInput, handleChatError),
  - `ChatMessage.ts` / `ChatThread.ts` (mongoose schemas).

Strings are modelled as `List Char`; machine integers as `Nat`; the HTTP
transport as a function from the attempt index to an abstract outcome;
fallible code returns `Except`.  Wall-clock timestamps are modelled by a
monotone counter (`Store.nextTime`); real durations (response_time fields,
actual sleeping) are not modelled, but the *computed* backoff delays are.
-/

namespace AgentCraft

/-- JavaScript regex `\s` character class (also the character set removed by
`String.prototype.trim`): space, tab, LF, VT, FF, CR, NBSP, Ogham space mark,
the U+2000–U+200A range, LS, PS, NNBSP, MMSP, ideographic space and BOM. -/
def isWs (c : Char) : Bool :=
  decide (c.toNat = 0x20 ∨ c.toNat = 0x9 ∨ c.toNat = 0xa ∨ c.toNat = 0xb ∨
    c.toNat = 0xc ∨ c.toNat = 0xd ∨ c.toNat = 0xa0 ∨ c.toNat = 0x1680 ∨
    (0x2000 ≤ c.toNat ∧ c.toNat ≤ 0x200a) ∨ c.toNat = 0x2028 ∨ c.toNat = 0x2029 ∨
    c.toNat = 0x202f ∨ c.toNat = 0x205f ∨ c.toNat = 0x3000 ∨ c.toNat = 0xfeff)

/-- The regex class `[\r\n]` used by `cleanResponse`. -/
def isCRLF (c : Char) : Bool :=
  decide (c.toNat = 0xd ∨ c.toNat = 0xa)

/-- JavaScript LineTerminator set: positions after one of these characters are
line starts for a multiline (`m`-flag) `^` anchor. -/
def isLineTerm (c : Char) : Bool :=
  decide (c.toNat = 0xa ∨ c.toNat = 0xd ∨ c.toNat = 0x2028 ∨ c.toNat = 0x2029)

/-- `String.prototype.trim`: drop JS whitespace from both ends. -/
def jsTrim (l : List Char) : List Char :=
  ((l.dropWhile isWs).reverse.dropWhile isWs).reverse

/-- Helper for the `^\s*[\r\n]+` match: given the whitespace run `w` at a line
start, a greedy `\s*` followed by a greedy `[\r\n]+` consumes `w` up to and
including the last CR/LF character of `w`.  Returns the remainder of `w`
strictly after that character, or `none` when `w` has no CR/LF. -/
def afterLastCrlf : List Char → Option (List Char)
  | [] => none
  | c :: cs =>
    match afterLastCrlf cs with
    | some t => some t
    | none => if isCRLF c then some cs else none

/-- At a line-start position of the input, the leftmost `^\s*[\r\n]+` match (if
any) and the rest of the input after it. -/
def matchLeadNl (l : List Char) : Option (List Char) :=
  match afterLastCrlf (l.takeWhile isWs) with
  | some t => some (t ++ l.dropWhile isWs)
  | none => none

theorem afterLastCrlf_length {w t : List Char} (h : afterLastCrlf w = some t) :
    t.length < w.length := by
  induction w with
  | nil => simp [afterLastCrlf] at h
  | cons c cs ih =>
    simp only [afterLastCrlf] at h
    cases hc : afterLastCrlf cs with
    | some u =>
      rw [hc] at h
      cases h
      exact Nat.lt_trans (ih hc) (Nat.lt_succ_self _)
    | none =>
      rw [hc] at h
      by_cases hcr : isCRLF c = true
      · simp [hcr] at h
        cases h
        exact Nat.lt_succ_self _
      · simp [hcr] at h

theorem matchLeadNl_length {l r : List Char} (h : matchLeadNl l = some r) :
    r.length < l.length := by
  unfold matchLeadNl at h
  cases ha : afterLastCrlf (l.takeWhile isWs) with
  | none => rw [ha] at h; cases h
  | some t =>
    rw [ha] at h
    cases h
    have h1 : t.length < (l.takeWhile isWs).length := afterLastCrlf_length ha
    have h2 : (l.takeWhile isWs).length + (l.dropWhile isWs).length = l.length := by
      rw [← List.length_append, List.takeWhile_append_dropWhile]
    simp only [List.length_append]
    omega

/-- The replacement `.replace(/^\s*[\r\n]+/gm, '')` of `cleanResponse`,
as a left-to-right scanner over the input.  The Boolean argument records
whether the current position is a line start (position 0, or a position
immediately after a LineTerminator); only there can the anchored regex match,
and a match is removed from the output. -/
def stripLeadNl (atLS : Bool) (l : List Char) : List Char :=
  match l with
  | [] => []
  | c :: cs =>
    if atLS then
      match h : matchLeadNl (c :: cs) with
      | some r => stripLeadNl true r
      | none => c :: stripLeadNl (isLineTerm c) cs
    else
      c :: stripLeadNl (isLineTerm c) cs
termination_by l.length
decreasing_by
  · exact matchLeadNl_length h
  · simp
  · simp

/-- The replacement `.replace(/\s*[\r\n]+\s*/g, '\n')`: a maximal whitespace
run containing at least one CR/LF is replaced by a single `'\n'`; whitespace
runs without CR/LF are left alone (the regex cannot match inside them). -/
def collapseNl : List Char → List Char
  | [] => []
  | c :: cs =>
    if isWs c then
      (if (c :: cs.takeWhile isWs).any isCRLF then ['\n'] else c :: cs.takeWhile isWs)
        ++ collapseNl (cs.dropWhile isWs)
    else
      c :: collapseNl cs
termination_by l => l.length
decreasing_by
  · exact Nat.lt_succ_of_le (List.dropWhile_suffix isWs).length_le
  · simp

/-- The replacement `.replace(/\s{2,}/g, ' ')`: a maximal whitespace run of
length at least 2 is replaced by a single space. -/
def collapseSp : List Char → List Char
  | [] => []
  | c :: cs =>
    if isWs c then
      (if cs.takeWhile isWs = [] then [c] else [' '])
        ++ collapseSp (cs.dropWhile isWs)
    else
      c :: collapseSp cs
termination_by l => l.length
decreasing_by
  · exact Nat.lt_succ_of_le (List.dropWhile_suffix isWs).length_le
  · simp

/-- `GeminiService.cleanResponse`: trim, then the three chained regex
replacements (the scan for the multiline-anchored one starts at a line start). -/
def cleanResponse (l : List Char) : List Char :=
  collapseSp (collapseNl (stripLeadNl true (jsTrim l)))

/-- `GeminiConfig` (gemini.service.ts).  `temperature` and `topP` are the
source's floating-point generation parameters; no claim computes with them, and
they are represented as rationals. -/
structure GeminiConfig where
  model : String
  temperature : Rat
  topK : Nat
  topP : Rat
  maxOutputTokens : Nat
  timeout : Nat
  maxRetries : Nat
  retryDelay : Nat
deriving DecidableEq, Repr

/-- `DEFAULT_CONFIG` of gemini.service.ts. -/
def DEFAULT_CONFIG : GeminiConfig :=
  { model := "gemini-1.5-flash"
    temperature := (7 : Rat) / 10
    topK := 40
    topP := (95 : Rat) / 100
    maxOutputTokens := 2048
    timeout := 30000
    maxRetries := 2
    retryDelay := 1000 }

/-- A `Partial<GeminiConfig>` as accepted by `updateConfig`. -/
structure GeminiConfigPatch where
  model : Option String := none
  temperature : Option Rat := none
  topK : Option Nat := none
  topP : Option Rat := none
  maxOutputTokens : Option Nat := none
  timeout : Option Nat := none
  maxRetries : Option Nat := none
  retryDelay : Option Nat := none
deriving DecidableEq, Repr

/-- `GeminiService.updateConfig`: spread-merge of the patch over the config. -/
def updateConfig (cfg : GeminiConfig) (p : GeminiConfigPatch) : GeminiConfig :=
  { model := p.model.getD cfg.model
    temperature := p.temperature.getD cfg.temperature
    topK := p.topK.getD cfg.topK
    topP := p.topP.getD cfg.topP
    maxOutputTokens := p.maxOutputTokens.getD cfg.maxOutputTokens
    timeout := p.timeout.getD cfg.timeout
    maxRetries := p.maxRetries.getD cfg.maxRetries
    retryDelay := p.retryDelay.getD cfg.retryDelay }

/-- Message roles stored by the chat feature. -/
inductive Role where
  | user
  | assistant
deriving DecidableEq, Repr

/-- A context entry passed to `generateResponse`. -/
structure CtxMsg where
  role : Role
  content : List Char
deriving DecidableEq, Repr

/-- `GeminiRequestContent`: a turn of the request body (`role` is the wire
string, a part is its text). -/
structure GeminiRequestContent where
  role : String
  parts : List (List Char)
deriving DecidableEq, Repr

/-- The optional `generationConfig` fields of a request. -/
structure GenerationConfig where
  temperature : Option Rat := none
  topK : Option Nat := none
  topP : Option Rat := none
  maxOutputTokens : Option Nat := none
deriving DecidableEq, Repr

/-- One entry of `safetySettings`. -/
structure SafetySetting where
  category : String
  threshold : String
deriving DecidableEq, Repr

/-- `GeminiRequest`: the JSON body sent to the provider. -/
structure GeminiRequest where
  contents : List GeminiRequestContent
  generationConfig : GenerationConfig
  safetySettings : List SafetySetting
deriving DecidableEq, Repr

/-- The fixed `safetySettings` sent with every `generateResponse` call. -/
def fixedSafetySettings : List SafetySetting :=
  [⟨"HARM_CATEGORY_HARASSMENT", "BLOCK_MEDIUM_AND_ABOVE"⟩,
   ⟨"HARM_CATEGORY_HATE_SPEECH", "BLOCK_MEDIUM_AND_ABOVE"⟩,
   ⟨"HARM_CATEGORY_SEXUALLY_EXPLICIT", "BLOCK_MEDIUM_AND_ABOVE"⟩,
   ⟨"HARM_CATEGORY_DANGEROUS_CONTENT", "BLOCK_MEDIUM_AND_ABOVE"⟩]

/-- `candidate.content` of a provider response; runtime checks treat `parts`
and each part's `text` as possibly absent. -/
structure CandContent where
  parts : Option (List (Option (List Char)))
  role : Option String
deriving DecidableEq, Repr

/-- One entry of `response.candidates`. -/
structure GeminiCandidate where
  content : Option CandContent
  finishReason : Option String
deriving DecidableEq, Repr

/-- `response.usageMetadata`. -/
structure UsageMetadata where
  promptTokenCount : Nat
  candidatesTokenCount : Nat
  totalTokenCount : Nat
deriving DecidableEq, Repr

/-- The decoded 200-response body (`GeminiResponse` in the source); the
runtime guard treats `candidates` as possibly absent. -/
structure GeminiResponse where
  candidates : Option (List GeminiCandidate)
  usageMetadata : Option UsageMetadata
deriving DecidableEq, Repr

/-- The JavaScript error values that flow through the service: `apiError` is a
`GeminiAPIError(message, statusCode)` (its `code` is `API_ERROR`); `gemini` is
a plain `GeminiError(message, statusCode, code)`; `err` is any non-Gemini
`Error` thrown by the HTTP client (network failure, timeout). -/
inductive JsError where
  | apiError (message : String) (status : Nat)
  | gemini (message : String) (statusCode : Option Nat) (code : Option String)
  | err (message : String)
deriving DecidableEq, Repr

/-- `error.message`. -/
def JsError.message : JsError → String
  | .apiError m _ => m
  | .gemini m _ _ => m
  | .err m => m

/-- `error.statusCode` (absent on non-Gemini errors). -/
def JsError.statusCode : JsError → Option Nat
  | .apiError _ s => some s
  | .gemini _ s _ => s
  | .err _ => none

/-- `error.code`. -/
def JsError.code : JsError → Option String
  | .apiError _ _ => some "API_ERROR"
  | .gemini _ _ c => c
  | .err _ => none

/-- The abstract outcome of one HTTP attempt: a 200 with a decoded body, a
non-200 status (with the provider `error.message` when the error body was
parseable JSON), or a transport-level rejection (connection refused, DNS
failure, undici timeout) whose message is the thrown error's. -/
inductive Outcome where
  | success (body : GeminiResponse)
  | httpError (status : Nat) (errMessage : Option String)
  | reject (message : String)
deriving DecidableEq, Repr

/-- `errorMessage` for a non-200 status: the parsed provider message, else
the default text. -/
def httpErrorMessage (status : Nat) (m : Option String) : String :=
  match m with
  | some msg => msg
  | none => "Gemini API error: " ++ toString status

/-- What one loop iteration of `callGeminiAPI` does with its outcome: return
the body, throw a non-retryable error (a `GeminiAPIError` with a 4xx status
other than 429 is rethrown by the catch), or record a retryable error. -/
inductive AttemptStep where
  | done (body : GeminiResponse)
  | fatal (e : JsError)
  | retryable (e : JsError)
deriving DecidableEq, Repr

/-- The per-attempt classification of `callGeminiAPI` (status checks in the
try block plus the 4xx-rethrow test in the catch block). -/
def classifyAttempt : Outcome → AttemptStep
  | .success b => .done b
  | .reject m => .retryable (.err m)
  | .httpError s m =>
    if s = 401 then .fatal (.apiError "Invalid API key" 401)
    else if s = 403 then .fatal (.apiError "API access forbidden - check permissions" 403)
    else if s = 429 then .retryable (.apiError "Rate limit exceeded" 429)
    else if 400 ≤ s ∧ s < 500 then .fatal (.apiError (httpErrorMessage s m) s)
    else .retryable (.apiError (httpErrorMessage s m) s)

/-- Result of `callGeminiAPI`: the returned body or thrown error, the number
of HTTP attempts made, and the backoff delays computed before each retry (the
argument of each `sleep`, in order). -/
structure CallResult where
  result : Except JsError GeminiResponse
  attempts : Nat
  delays : List Nat
deriving Repr

/-- The retry loop of `callGeminiAPI` from attempt index `attempt` on: stop on
200 or on a non-retryable error; otherwise, if `attempt < maxRetries`, sleep
`retryDelay * 2 ^ attempt` and try again, else throw the recorded error. -/
def callAux (cfg : GeminiConfig) (transport : Nat → Outcome) (attempt : Nat) : CallResult :=
  match classifyAttempt (transport attempt) with
  | .done b => ⟨.ok b, attempt + 1, []⟩
  | .fatal e => ⟨.error e, attempt + 1, []⟩
  | .retryable e =>
    if attempt < cfg.maxRetries then
      let d := cfg.retryDelay * 2 ^ attempt
      let r := callAux cfg transport (attempt + 1)
      ⟨r.result, r.attempts, d :: r.delays⟩
    else
      ⟨.error e, attempt + 1, []⟩
termination_by cfg.maxRetries - attempt
decreasing_by
  omega

/-- `GeminiService.callGeminiAPI`.  The request body does not influence the
abstract transport, but is carried to mirror the source signature. -/
def callGeminiAPI (cfg : GeminiConfig) (_body : GeminiRequest)
    (transport : Nat → Outcome) : CallResult :=
  callAux cfg transport 0

/-- `GeminiService.validateInput`. -/
def validateInput (prompt : List Char) : Except JsError Unit :=
  if prompt.isEmpty then
    .error (.gemini "Prompt is required and must be a string" (some 400) (some "VALIDATION_ERROR"))
  else if (jsTrim prompt).length = 0 then
    .error (.gemini "Prompt cannot be empty" (some 400) (some "VALIDATION_ERROR"))
  else if (jsTrim prompt).length < 1 then
    .error (.gemini "Prompt must be at least 1 character long" (some 400) (some "VALIDATION_ERROR"))
  else if 30000 < prompt.length then
    .error (.gemini "Prompt exceeds maximum length of 30,000 characters" (some 400)
      (some "VALIDATION_ERROR"))
  else
    .ok ()

/-- The wire role of a context message (`assistant` maps to `model`). -/
def roleString : Role → String
  | .assistant => "model"
  | .user => "user"

/-- `GeminiService.buildConversationContext`: context turns in order, then the
trimmed prompt as a final `user` turn. -/
def buildConversationContext (prompt : List Char) (context : List CtxMsg) :
    List GeminiRequestContent :=
  (context.map fun m => ⟨roleString m.role, [m.content]⟩) ++ [⟨"user", [jsTrim prompt]⟩]

/-- The token-usage triple of a normalized response. -/
structure Usage where
  prompt_tokens : Nat
  completion_tokens : Nat
  total_tokens : Nat
deriving DecidableEq, Repr

/-- `GeminiServiceResponse` (the `timestamp : Date` field is wall-clock and is
not modelled). -/
structure GeminiServiceResponse where
  answer : List Char
  model : String
  usage : Usage
  finishReason : String
deriving DecidableEq, Repr

/-- `GeminiService.processGeminiResponse`: the response-shape guards, the
empty-text guard, cleaning, usage defaults and the `STOP` default. -/
def processGeminiResponse (cfg : GeminiConfig) (resp : GeminiResponse) :
    Except JsError GeminiServiceResponse :=
  match resp.candidates with
  | none => .error (.gemini "No candidates in response" (some 500) (some "INVALID_RESPONSE"))
  | some [] => .error (.gemini "No candidates in response" (some 500) (some "INVALID_RESPONSE"))
  | some (cand :: _) =>
    match cand.content with
    | none =>
      .error (.gemini "No content in response candidate" (some 500) (some "INVALID_RESPONSE"))
    | some content =>
      match content.parts with
      | none =>
        .error (.gemini "No content in response candidate" (some 500) (some "INVALID_RESPONSE"))
      | some [] =>
        .error (.gemini "No content in response candidate" (some 500) (some "INVALID_RESPONSE"))
      | some (part0 :: _) =>
        match part0 with
        | none => .error (.gemini "Empty response generated" (some 500) (some "EMPTY_RESPONSE"))
        | some text =>
          if (jsTrim text).length = 0 then
            .error (.gemini "Empty response generated" (some 500) (some "EMPTY_RESPONSE"))
          else
            .ok { answer := cleanResponse text
                  model := cfg.model
                  usage :=
                    { prompt_tokens := (resp.usageMetadata.map (·.promptTokenCount)).getD 0
                      completion_tokens := (resp.usageMetadata.map (·.candidatesTokenCount)).getD 0
                      total_tokens := (resp.usageMetadata.map (·.totalTokenCount)).getD 0 }
                  finishReason := cand.finishReason.getD "STOP" }

/-- Whether `pat` is a prefix of `l` (Boolean). -/
def startsWithL : List Char → List Char → Bool
  | [], _ => true
  | _ :: _, [] => false
  | a :: as, b :: bs => a == b && startsWithL as bs

/-- Whether `pat` occurs contiguously in `l` (Boolean). -/
def hasSubstr : List Char → List Char → Bool
  | pat, [] => pat.isEmpty
  | pat, c :: cs => startsWithL pat (c :: cs) || hasSubstr pat cs

/-- `a.includes(b)` on strings. -/
def strContains (s sub : String) : Bool := hasSubstr sub.toList s.toList

/-- `GeminiService.handleGeminiError`. -/
def handleGeminiError : JsError → JsError
  | .apiError m s => .apiError m s
  | .gemini m s c => .gemini m s c
  | .err m =>
    if strContains m "timeout" || strContains m "ETIMEDOUT" then
      .gemini "Request timeout - Gemini API did not respond in time" (some 408)
        (some "TIMEOUT_ERROR")
    else if strContains m "ENOTFOUND" || strContains m "ECONNREFUSED" then
      .gemini "Network error - Cannot reach Gemini API" (some 503) (some "NETWORK_ERROR")
    else
      .gemini m (some 500) (some "UNKNOWN_ERROR")

/-- Result of `generateResponse`: outcome, attempt count, backoff delays and
the request body that was built (absent when validation failed first). -/
structure GenerateResult where
  result : Except JsError GeminiServiceResponse
  attempts : Nat
  delays : List Nat
  sentBody : Option GeminiRequest
deriving Repr

/-- `GeminiService.generateResponse`: validate, build the conversation and the
request body (generation parameters read from the config here, synchronously),
call the API with retries, process the response; every thrown error passes
through `handleGeminiError`.  `mkRequestBody` is the request-body literal of
the source (generation parameters from the config plus the fixed safety
settings). -/
def mkRequestBody (cfg : GeminiConfig) (contents : List GeminiRequestContent) :
    GeminiRequest :=
  { contents := contents
    generationConfig :=
      { temperature := some cfg.temperature
        topK := some cfg.topK
        topP := some cfg.topP
        maxOutputTokens := some cfg.maxOutputTokens }
    safetySettings := fixedSafetySettings }

def generateResponse (cfg : GeminiConfig) (transport : Nat → Outcome)
    (prompt : List Char) (context : List CtxMsg) : GenerateResult :=
  match validateInput prompt with
  | .error e => ⟨.error (handleGeminiError e), 0, [], none⟩
  | .ok _ =>
    let contents := buildConversationContext prompt context
    let body := mkRequestBody cfg contents
    let call := callGeminiAPI cfg body transport
    match call.result with
    | .error e => ⟨.error (handleGeminiError e), call.attempts, call.delays, some body⟩
    | .ok resp =>
      match processGeminiResponse cfg resp with
      | .error e => ⟨.error (handleGeminiError e), call.attempts, call.delays, some body⟩
      | .ok r => ⟨.ok r, call.attempts, call.delays, some body⟩

/-- `GeminiHealthCheck` (`last_check` and `response_time` are wall-clock
values, not modelled). -/
structure GeminiHealthCheck where
  api_status : String
  model : String
  error : Option String
deriving DecidableEq, Repr

/-- Result of `checkHealth` together with the number of HTTP attempts made. -/
structure HealthResult where
  health : GeminiHealthCheck
  attempts : Nat
deriving DecidableEq, Repr

/-- `GeminiService.checkHealth`: builds the minimal request and calls
`callGeminiAPI` (the same retrying loop `generateResponse` uses). -/
def checkHealth (cfg : GeminiConfig) (transport : Nat → Outcome) : HealthResult :=
  let body : GeminiRequest :=
    { contents := [⟨"user", ["Hello".toList]⟩]
      generationConfig := { maxOutputTokens := some 10, temperature := some ((1 : Rat) / 10) }
      safetySettings := [] }
  let call := callGeminiAPI cfg body transport
  match call.result with
  | .ok _ => ⟨⟨"online", cfg.model, none⟩, call.attempts⟩
  | .error e => ⟨⟨"offline", cfg.model, some e.message⟩, call.attempts⟩

/-- Result of the retry loop under concurrent configuration updates:
`timeoutsUsed` records the `this.config.timeout` value read when each attempt's
request was issued, `finalConfig` the configuration after the call. -/
structure CallResultI where
  result : Except JsError GeminiResponse
  attempts : Nat
  delays : List Nat
  timeoutsUsed : List Nat
  finalConfig : GeminiConfig
deriving Repr

/-- The retry loop of `callGeminiAPI` interleaved with `updateConfig` calls
from other tasks.  `sched a` is the configuration patch (if any) applied while
attempt `a`'s HTTP request is awaited; the loop re-reads `this.config` after
each await, so the retry-budget check, the backoff delay and the next
attempt's timeout use the updated configuration.  `fuel` bounds the loop
(mid-flight increases of `maxRetries` lengthen it, so no static bound exists);
theorems supply fuel at least `1 + the largest maxRetries in effect`.
`applyPatch?` applies an optional patch. -/
def applyPatch? (p : Option GeminiConfigPatch) (cfg : GeminiConfig) : GeminiConfig :=
  match p with
  | some q => updateConfig cfg q
  | none => cfg

def callAuxI (transport : Nat → Outcome) (sched : Nat → Option GeminiConfigPatch) :
    Nat → Nat → GeminiConfig → CallResultI
  | 0, attempt, cfg => ⟨.error (.err "model ran out of fuel"), attempt, [], [], cfg⟩
  | fuel + 1, attempt, cfg =>
    let cfg2 := applyPatch? (sched attempt) cfg
    match classifyAttempt (transport attempt) with
    | .done b => ⟨.ok b, attempt + 1, [], [cfg.timeout], cfg2⟩
    | .fatal e => ⟨.error e, attempt + 1, [], [cfg.timeout], cfg2⟩
    | .retryable e =>
      if attempt < cfg2.maxRetries then
        let d := cfg2.retryDelay * 2 ^ attempt
        let r := callAuxI transport sched fuel (attempt + 1) cfg2
        ⟨r.result, r.attempts, d :: r.delays, cfg.timeout :: r.timeoutsUsed, r.finalConfig⟩
      else
        ⟨.error e, attempt + 1, [], [cfg.timeout], cfg2⟩

/-- `callGeminiAPI` under a schedule of concurrent `updateConfig` calls.  The
`url` — and with it the model — is computed once, synchronously, before the
loop, from the configuration current at call start. -/
structure CallResultG where
  modelUsed : String
  call : CallResultI
deriving Repr

/-- Run the retry loop from attempt 0 with concurrent updates `sched`. -/
def callGeminiAPIConcurrent (cfg : GeminiConfig) (transport : Nat → Outcome)
    (sched : Nat → Option GeminiConfigPatch) (fuel : Nat) : CallResultG :=
  ⟨cfg.model, callAuxI transport sched fuel 0 cfg⟩

/-- The configuration visible after the awaits of attempts `0..k-1`: `cfg`
with the scheduled patches up to attempt `k-1` applied in order. -/
def configAt (sched : Nat → Option GeminiConfigPatch) (cfg : GeminiConfig) : Nat → GeminiConfig
  | 0 => cfg
  | k + 1 => applyPatch? (sched k) (configAt sched cfg k)

/-- `ChatService.validateInput` (plain `Error` messages). -/
def chatValidateInput (prompt : List Char) : Except String Unit :=
  if prompt.isEmpty then .error "Prompt is required and must be a string"
  else if (jsTrim prompt).length = 0 then .error "Prompt cannot be empty"
  else if (jsTrim prompt).length < 1 then .error "Prompt must be at least 1 character long"
  else if 30000 < prompt.length then .error "Prompt exceeds maximum length of 30,000 characters"
  else .ok ()

/-- `ChatService.handleChatError`: map a Gemini error to the caller-facing
`Error` message. -/
def handleChatError (e : JsError) : String :=
  match e.code with
  | some "VALIDATION_ERROR" => "Validation failed: " ++ e.message
  | some "API_ERROR" =>
    match e.statusCode with
    | some 401 => "Invalid API key"
    | some 403 => "API access forbidden"
    | some 429 => "Rate limit exceeded. Please try again later."
    | some 503 => "Service temporarily unavailable"
    | _ => "API error: " ++ e.message
  | some "TIMEOUT_ERROR" => "Request timeout. Please try again."
  | some "NETWORK_ERROR" => "Network error. Please check your connection."
  | _ => e.message

/-- `ChatServiceResponse` (timestamp omitted as wall-clock). -/
structure ChatServiceResponse where
  answer : List Char
  model : String
  usage : Usage
  finishReason : String
deriving Repr

/-- Result of `getChatResponse` with the call statistics carried through. -/
structure ChatResult where
  result : Except String ChatServiceResponse
  attempts : Nat
  delays : List Nat
  sentBody : Option GeminiRequest
deriving Repr

/-- `ChatService.getChatResponse`: validate, delegate to
`generateResponse`, transform the result, map errors via `handleChatError`. -/
def getChatResponse (cfg : GeminiConfig) (transport : Nat → Outcome)
    (prompt : List Char) (context : List CtxMsg) : ChatResult :=
  match chatValidateInput prompt with
  | .error m => ⟨.error m, 0, [], none⟩
  | .ok _ =>
    let g := generateResponse cfg transport prompt context
    match g.result with
    | .error e => ⟨.error (handleChatError e), g.attempts, g.delays, g.sentBody⟩
    | .ok r =>
      ⟨.ok ⟨r.answer, r.model, r.usage, r.finishReason⟩, g.attempts, g.delays, g.sentBody⟩

/-- A persisted chat message (`ChatMessage` document; `createdAt` is the
monotone model clock). -/
structure StoredMsg where
  threadId : Nat
  role : Role
  content : List Char
  createdAt : Nat
deriving DecidableEq, Repr

/-- A persisted chat thread (`ChatThread` document). -/
structure Thread where
  id : Nat
  userId : Nat
  title : List Char
  updatedAt : Nat
deriving DecidableEq, Repr

/-- The persistence store: threads, messages (in insertion order) and the
clock used for `createdAt`/`updatedAt`. -/
structure Store where
  threads : List Thread
  messages : List StoredMsg
  nextTime : Nat
deriving DecidableEq, Repr

/-- A mongoose save through `chatMessageSchema`: `trim: true` is applied to
`content`, then `required` (a trimmed-empty string fails validation) and
`maxlength: 50000` are checked. -/
def appendMessage (s : Store) (tid : Nat) (role : Role) (content : List Char) :
    Except String (StoredMsg × Store) :=
  let c := jsTrim content
  if c.isEmpty then
    .error "ChatMessage validation failed: content is required"
  else if 50000 < c.length then
    .error "ChatMessage validation failed: content exceeds maxlength"
  else
    let msg : StoredMsg := ⟨tid, role, c, s.nextTime⟩
    .ok (msg, { s with messages := s.messages ++ [msg], nextTime := s.nextTime + 1 })

/-- Insert one message into a list sorted by ascending `createdAt`. -/
def insertByCreatedAt (m : StoredMsg) : List StoredMsg → List StoredMsg
  | [] => [m]
  | x :: xs =>
    if m.createdAt ≤ x.createdAt then m :: x :: xs else x :: insertByCreatedAt m xs

/-- Sort by ascending `createdAt` (the `.sort({ createdAt: 1 })` of the Mongo
query). -/
def sortByCreatedAt : List StoredMsg → List StoredMsg
  | [] => []
  | x :: xs => insertByCreatedAt x (sortByCreatedAt xs)

/-- Result of `sendMessageToThread`: the outcome (or thrown error message),
the final store, whether the context query ran, the number of provider HTTP
attempts, and the provider request body that was sent (if any). -/
structure SendResult where
  result : Except String (StoredMsg × StoredMsg)
  store : Store
  contextLoads : Nat
  providerAttempts : Nat
  sentBody : Option GeminiRequest
deriving Repr

/-- `ChatService.sendMessageToThread`.  Mongo ObjectIds are abstracted as
`Nat` (the `ObjectId.isValid` guards concern id syntax only and always pass
here); `new Date()` is the store's monotone counter.  Order of operations as
in the source: ownership lookup, context query (`sort createdAt ascending`,
`limit 10`), save of the trimmed user message, AI call, save of the assistant
message, bump of the thread's `updatedAt`. -/
def sendMessageToThread (cfg : GeminiConfig) (transport : Nat → Outcome) (s : Store)
    (userId threadId : Nat) (content : List Char) : SendResult :=
  match s.threads.find? (fun th => th.id == threadId && th.userId == userId) with
  | none => ⟨.error "Thread not found or access denied", s, 0, 0, none⟩
  | some _ =>
    let previousMessages :=
      (sortByCreatedAt (s.messages.filter (fun m => m.threadId == threadId))).take 10
    let context := previousMessages.map fun m => CtxMsg.mk m.role m.content
    match appendMessage s threadId .user (jsTrim content) with
    | .error msg => ⟨.error msg, s, 1, 0, none⟩
    | .ok (userMsg, s1) =>
      let ai := getChatResponse cfg transport content context
      match ai.result with
      | .error msg => ⟨.error msg, s1, 1, ai.attempts, ai.sentBody⟩
      | .ok resp =>
        match appendMessage s1 threadId .assistant resp.answer with
        | .error msg => ⟨.error msg, s1, 1, ai.attempts, ai.sentBody⟩
        | .ok (assistantMsg, s2) =>
          let s3 : Store :=
            { s2 with
              threads := s2.threads.map fun th =>
                if th.id == threadId then { th with updatedAt := s2.nextTime } else th
              nextTime := s2.nextTime + 1 }
          ⟨.ok (userMsg, assistantMsg), s3, 1, ai.attempts, ai.sentBody⟩

/-- A minimal request body used by concrete instances. -/
def emptyReq : GeminiRequest := ⟨[], {}, []⟩

/-- A provider that answers 429 on every attempt. -/
def tAll429 : Nat → Outcome := fun _ => .httpError 429 none

/-- A provider that answers 500 on every attempt. -/
def tAll500 : Nat → Outcome := fun _ => .httpError 500 none

/-- A provider that answers 401 on every attempt. -/
def tAll401 : Nat → Outcome := fun _ => .httpError 401 none

/-- The default configuration with a retry budget of one. -/
def cfgRetryOne : GeminiConfig := { DEFAULT_CONFIG with maxRetries := 1 }

/-- An admin update arriving during attempt 0: set `retryDelay` to 7777. -/
def schedPatch0 : Nat → Option GeminiConfigPatch :=
  fun a => if a = 0 then some { retryDelay := some 7777 } else none

/-- No admin update at all. -/
def schedNone : Nat → Option GeminiConfigPatch := fun _ => none

/-- A thread with id 1 owned by user 7. -/
def threadFix : Thread := ⟨1, 7, ['t'], 0⟩

/-- A store holding only that thread and no messages. -/
def storeOneThread : Store := ⟨[threadFix], [], 1⟩

/-- A decoded 200 body with an empty candidates list. -/
def bodyNoCands : GeminiResponse := ⟨some [], none⟩

/-- A provider returning 200 with empty candidates on every attempt. -/
def tEmptyCands : Nat → Outcome := fun _ => .success bodyNoCands

/-- The i-th prior message of an eleven-message history: content is the
single character of code 48 + i, created at time i + 1. -/
def mkHistMsg (i : Nat) : StoredMsg := ⟨1, .user, [Char.ofNat (48 + i)], i + 1⟩

/-- A store whose thread 1 holds eleven prior messages. -/
def storeEleven : Store := ⟨[threadFix], (List.range 11).map mkHistMsg, 20⟩

/-- A decoded 200 body with one candidate whose text is `" ok"`. -/
def bodyOneCand : GeminiResponse :=
  ⟨some [⟨some ⟨some [some [' ', 'o', 'k']], some "model"⟩, some "STOP"⟩], none⟩

/-- A provider returning that body on every attempt. -/
def tOneCand : Nat → Outcome := fun _ => .success bodyOneCand

theorem stripLeadNl_nil (ls : Bool) : stripLeadNl ls [] = [] := by
  rw [stripLeadNl.eq_def]

theorem stripLeadNl_cons_false (c : Char) (cs : List Char) :
    stripLeadNl false (c :: cs) = c :: stripLeadNl (isLineTerm c) cs := by
  rw [stripLeadNl.eq_def]
  simp

theorem stripLeadNl_cons_none {c : Char} {cs : List Char}
    (h : matchLeadNl (c :: cs) = none) :
    stripLeadNl true (c :: cs) = c :: stripLeadNl (isLineTerm c) cs := by
  rw [stripLeadNl.eq_def]
  simp only [if_true]
  split
  · rename_i r hr
    rw [h] at hr
    cases hr
  · rfl

theorem stripLeadNl_cons_some {c : Char} {cs r : List Char}
    (h : matchLeadNl (c :: cs) = some r) :
    stripLeadNl true (c :: cs) = stripLeadNl true r := by
  rw [stripLeadNl.eq_def]
  simp only [if_true]
  split
  · rename_i r2 hr
    rw [h] at hr
    cases hr
    rfl
  · rename_i hr
    rw [h] at hr
    cases hr

theorem collapseNl_nil : collapseNl [] = [] := by
  rw [collapseNl.eq_def]

theorem collapseNl_cons_notWs {c : Char} {cs : List Char} (h : isWs c = false) :
    collapseNl (c :: cs) = c :: collapseNl cs := by
  rw [collapseNl.eq_def]
  simp [h]

theorem collapseNl_cons_ws {c : Char} {cs : List Char} (h : isWs c = true) :
    collapseNl (c :: cs) =
      (if (c :: cs.takeWhile isWs).any isCRLF then ['\n'] else c :: cs.takeWhile isWs)
        ++ collapseNl (cs.dropWhile isWs) := by
  rw [collapseNl.eq_def]
  simp [h]

theorem collapseSp_nil : collapseSp [] = [] := by
  rw [collapseSp.eq_def]

theorem collapseSp_cons_notWs {c : Char} {cs : List Char} (h : isWs c = false) :
    collapseSp (c :: cs) = c :: collapseSp cs := by
  rw [collapseSp.eq_def]
  simp [h]

theorem collapseSp_cons_ws {c : Char} {cs : List Char} (h : isWs c = true) :
    collapseSp (c :: cs) =
      (if cs.takeWhile isWs = [] then [c] else [' ']) ++ collapseSp (cs.dropWhile isWs) := by
  rw [collapseSp.eq_def]
  simp [h]

/-- No two adjacent whitespace characters. -/
def isolatedWs : List Char → Bool
  | [] => true
  | [_] => true
  | a :: b :: rest => (!(isWs a && isWs b)) && isolatedWs (b :: rest)

/-- No carriage-return character. -/
def noCR (l : List Char) : Bool := l.all (fun c => decide (c.toNat ≠ 0xd))

/-- The first character, if any, is not whitespace. -/
def headNotWs : List Char → Bool
  | [] => true
  | c :: _ => !isWs c

/-- The last character, if any, is not whitespace. -/
def lastNotWs (l : List Char) : Bool := headNotWs l.reverse

theorem isWs_of_isLineTerm {c : Char} (h : isLineTerm c = true) : isWs c = true := by
  simp only [isLineTerm, decide_eq_true_eq] at h
  simp only [isWs, decide_eq_true_eq]
  omega

theorem isWs_of_isCRLF {c : Char} (h : isCRLF c = true) : isWs c = true := by
  simp only [isCRLF, decide_eq_true_eq] at h
  simp only [isWs, decide_eq_true_eq]
  omega

theorem isWs_cr : isWs '\r' = true := by decide

theorem eq_nl_of_isCRLF_of_noCRchar {c : Char} (h : isCRLF c = true)
    (h2 : c.toNat ≠ 0xd) : c = '\n' := by
  simp only [isCRLF, decide_eq_true_eq] at h
  have h3 : c.toNat = 0xa := by omega
  have h2 : c.val.toNat = (('\n').val).toNat := by simpa [Char.toNat] using h3
  exact Char.ext (UInt32.toNat.inj h2)

theorem isolatedWs_tail {a : Char} {l : List Char} (h : isolatedWs (a :: l) = true) :
    isolatedWs l = true := by
  cases l with
  | nil => rfl
  | cons b rest => simp only [isolatedWs, Bool.and_eq_true] at h; exact h.2

theorem headNotWs_of_isolatedWs_cons {a : Char} {l : List Char}
    (h : isolatedWs (a :: l) = true) (ha : isWs a = true) : headNotWs l = true := by
  cases l with
  | nil => rfl
  | cons b rest =>
    simp only [isolatedWs, Bool.and_eq_true, Bool.not_eq_true', Bool.and_eq_false_iff] at h
    rcases h.1 with h1 | h1
    · rw [ha] at h1; cases h1
    · simp [headNotWs, h1]

theorem isolatedWs_cons_of_not {a : Char} {l : List Char} (ha : isWs a = false)
    (h : isolatedWs l = true) : isolatedWs (a :: l) = true := by
  cases l with
  | nil => rfl
  | cons b rest => simp [isolatedWs, ha, h]

theorem isolatedWs_cons_of_headNotWs {a : Char} {l : List Char}
    (h : headNotWs l = true) (hl : isolatedWs l = true) : isolatedWs (a :: l) = true := by
  cases l with
  | nil => rfl
  | cons b rest =>
    simp only [headNotWs, Bool.not_eq_true'] at h
    simp [isolatedWs, h, hl]

theorem takeWhile_isWs_eq_nil {l : List Char} (h : headNotWs l = true) :
    l.takeWhile isWs = [] := by
  cases l with
  | nil => rfl
  | cons c cs =>
    simp only [headNotWs, Bool.not_eq_true'] at h
    simp [List.takeWhile_cons, h]

theorem dropWhile_isWs_eq_self {l : List Char} (h : headNotWs l = true) :
    l.dropWhile isWs = l := by
  cases l with
  | nil => rfl
  | cons c cs =>
    simp only [headNotWs, Bool.not_eq_true'] at h
    simp [List.dropWhile_cons, h]

theorem headNotWs_dropWhile (l : List Char) : headNotWs (l.dropWhile isWs) = true := by
  cases hd : l.dropWhile isWs with
  | nil => rfl
  | cons c cs =>
    have : ¬ isWs c = true := by
      have := List.head_dropWhile_not isWs l (by simp [hd])
      simpa [hd] using this
    simp [headNotWs, Bool.not_eq_true', this]

theorem isLineTerm_eq_false {c : Char} (h : isWs c = false) : isLineTerm c = false := by
  cases hlt : isLineTerm c with
  | false => rfl
  | true => rw [isWs_of_isLineTerm hlt] at h; cases h

theorem jsTrim_eq_self {l : List Char} (h1 : headNotWs l = true) (h2 : lastNotWs l = true) :
    jsTrim l = l := by
  unfold jsTrim
  rw [dropWhile_isWs_eq_self h1, dropWhile_isWs_eq_self h2, List.reverse_reverse]

theorem jsTrim_eq_rdrop (l : List Char) :
    jsTrim l = List.rdropWhile isWs (l.dropWhile isWs) := rfl

theorem headNotWs_of_isPre {l m : List Char} (h : l <+: m) (hm : headNotWs m = true) :
    headNotWs l = true := by
  cases l with
  | nil => rfl
  | cons c cs =>
    obtain ⟨t, ht⟩ := h
    rw [← ht] at hm
    simpa [headNotWs] using hm

theorem headNotWs_jsTrim (l : List Char) : headNotWs (jsTrim l) = true := by
  rw [jsTrim_eq_rdrop]
  exact headNotWs_of_isPre (List.rdropWhile_prefix _ _) (headNotWs_dropWhile l)

theorem lastNotWs_jsTrim (l : List Char) : lastNotWs (jsTrim l) = true := by
  unfold lastNotWs jsTrim
  rw [List.reverse_reverse]
  exact headNotWs_dropWhile _

theorem jsTrim_idem (l : List Char) : jsTrim (jsTrim l) = jsTrim l :=
  jsTrim_eq_self (headNotWs_jsTrim l) (lastNotWs_jsTrim l)

theorem lastNotWs_append {u v : List Char} (h : v ≠ []) :
    lastNotWs (u ++ v) = lastNotWs v := by
  unfold lastNotWs
  rw [List.reverse_append]
  cases hy : v.reverse with
  | nil => exact absurd (by simpa using congrArg List.reverse hy) h
  | cons a t => simp [headNotWs]

theorem not_lastNotWs_of_all_ws {l : List Char} (hne : l ≠ [])
    (h : ∀ x ∈ l, isWs x = true) : lastNotWs l = false := by
  cases hr : l.reverse with
  | nil => exact absurd (by simpa using congrArg List.reverse hr) hne
  | cons a t =>
    have ha : a ∈ l := by
      have : a ∈ l.reverse := by simp [hr]
      simpa using this
    simp [lastNotWs, hr, headNotWs, h a ha]

theorem matchLeadNl_eq_none {l : List Char} (h : headNotWs l = true) :
    matchLeadNl l = none := by
  unfold matchLeadNl
  rw [takeWhile_isWs_eq_nil h]
  rfl

theorem matchLeadNl_some_shape {l r : List Char} (h : matchLeadNl l = some r) :
    ∃ t, afterLastCrlf (l.takeWhile isWs) = some t ∧ r = t ++ l.dropWhile isWs := by
  unfold matchLeadNl at h
  cases ha : afterLastCrlf (l.takeWhile isWs) with
  | none => rw [ha] at h; cases h
  | some t => rw [ha] at h; cases h; exact ⟨t, rfl, rfl⟩

theorem dropWhile_ne_nil_of_lastNotWs {l : List Char} (hne : l ≠ [])
    (h : lastNotWs l = true) : l.dropWhile isWs ≠ [] := by
  intro hd
  have hall : ∀ x ∈ l, isWs x = true := List.dropWhile_eq_nil_iff.mp hd
  rw [not_lastNotWs_of_all_ws hne hall] at h
  cases h

theorem lastNotWs_dropWhile {l : List Char} (hne : l.dropWhile isWs ≠ [])
    (h : lastNotWs l = true) : lastNotWs (l.dropWhile isWs) = true := by
  conv at h => rw [← List.takeWhile_append_dropWhile (p := isWs) (l := l)]
  rwa [lastNotWs_append hne] at h

/-- Identity of the `^\s*[\r\n]+` removal on strings whose whitespace is
isolated, CR-free, and (at a line start) that do not begin with whitespace. -/
theorem stripLeadNl_id : ∀ (n : Nat) (ls : Bool) (l : List Char), l.length ≤ n →
    isolatedWs l = true → noCR l = true → (ls = true → headNotWs l = true) →
    stripLeadNl ls l = l := by
  intro n
  induction n with
  | zero =>
    intro ls l hn _ _ _
    have : l = [] := List.eq_nil_of_length_eq_zero (Nat.le_zero.mp hn)
    subst this
    exact stripLeadNl_nil ls
  | succ m ih =>
    intro ls l hn hiso hcr hls
    cases l with
    | nil => exact stripLeadNl_nil ls
    | cons c cs =>
      have hcs_iso : isolatedWs cs = true := isolatedWs_tail hiso
      have hcs_cr : noCR cs = true := by
        simp only [noCR, List.all_cons, Bool.and_eq_true] at hcr
        exact hcr.2
      have hcs_len : cs.length ≤ m := by simpa using hn
      have hnext : ∀ b : Bool, b = isLineTerm c →
          stripLeadNl (isLineTerm c) cs = cs := by
        intro b _
        cases hlt : isLineTerm c with
        | false => exact ih false cs hcs_len hcs_iso hcs_cr (by intro h; cases h)
        | true =>
          have hwc : isWs c = true := isWs_of_isLineTerm hlt
          exact ih true cs hcs_len hcs_iso hcs_cr
            (fun _ => headNotWs_of_isolatedWs_cons hiso hwc)
      cases ls with
      | false =>
        rw [stripLeadNl_cons_false, hnext _ rfl]
      | true =>
        have hhead : headNotWs (c :: cs) = true := hls rfl
        rw [stripLeadNl_cons_none (matchLeadNl_eq_none hhead), hnext _ rfl]

/-- Identity of the `\s*[\r\n]+\s*` collapse on strings with isolated, CR-free
whitespace. -/
theorem collapseNl_id : ∀ (n : Nat) (l : List Char), l.length ≤ n →
    isolatedWs l = true → noCR l = true → collapseNl l = l := by
  intro n
  induction n with
  | zero =>
    intro l hn _ _
    have : l = [] := List.eq_nil_of_length_eq_zero (Nat.le_zero.mp hn)
    subst this; exact collapseNl_nil
  | succ m ih =>
    intro l hn hiso hcr
    cases l with
    | nil => exact collapseNl_nil
    | cons c cs =>
      have hcs_iso : isolatedWs cs = true := isolatedWs_tail hiso
      have hcs_cr : noCR cs = true := by
        simp only [noCR, List.all_cons, Bool.and_eq_true] at hcr
        exact hcr.2
      have hcs_len : cs.length ≤ m := by simpa using hn
      cases hwc : isWs c with
      | false =>
        rw [collapseNl_cons_notWs hwc, ih cs hcs_len hcs_iso hcs_cr]
      | true =>
        have htw : cs.takeWhile isWs = [] :=
          takeWhile_isWs_eq_nil (headNotWs_of_isolatedWs_cons hiso hwc)
        have hdw : cs.dropWhile isWs = cs :=
          dropWhile_isWs_eq_self (headNotWs_of_isolatedWs_cons hiso hwc)
        rw [collapseNl_cons_ws hwc, htw, hdw]
        have hcnat : c.toNat ≠ 0xd := by
          simp only [noCR, List.all_cons, Bool.and_eq_true, decide_eq_true_eq] at hcr
          exact hcr.1
        cases hcrlf : isCRLF c with
        | false =>
          simp only [List.any_cons, List.any_nil, hcrlf, Bool.or_false, if_false]
          rw [ih cs hcs_len hcs_iso hcs_cr]
          rfl
        | true =>
          have : c = '\n' := eq_nl_of_isCRLF_of_noCRchar hcrlf hcnat
          subst this
          simp only [List.any_cons, List.any_nil, hcrlf, Bool.or_false, if_true]
          rw [ih cs hcs_len hcs_iso hcs_cr]
          rfl

/-- Identity of the `\s{2,}` collapse on strings with isolated whitespace. -/
theorem collapseSp_id : ∀ (n : Nat) (l : List Char), l.length ≤ n →
    isolatedWs l = true → collapseSp l = l := by
  intro n
  induction n with
  | zero =>
    intro l hn _
    have : l = [] := List.eq_nil_of_length_eq_zero (Nat.le_zero.mp hn)
    subst this; exact collapseSp_nil
  | succ m ih =>
    intro l hn hiso
    cases l with
    | nil => exact collapseSp_nil
    | cons c cs =>
      have hcs_iso : isolatedWs cs = true := isolatedWs_tail hiso
      have hcs_len : cs.length ≤ m := by simpa using hn
      cases hwc : isWs c with
      | false =>
        rw [collapseSp_cons_notWs hwc, ih cs hcs_len hcs_iso]
      | true =>
        have htw : cs.takeWhile isWs = [] :=
          takeWhile_isWs_eq_nil (headNotWs_of_isolatedWs_cons hiso hwc)
        have hdw : cs.dropWhile isWs = cs :=
          dropWhile_isWs_eq_self (headNotWs_of_isolatedWs_cons hiso hwc)
        rw [collapseSp_cons_ws hwc, htw, hdw]
        simp only [if_true]
        rw [ih cs hcs_len hcs_iso]
        rfl

theorem headNotWs_stripLeadNl {ls : Bool} {l : List Char} (h : headNotWs l = true) :
    headNotWs (stripLeadNl ls l) = true := by
  cases l with
  | nil => rw [stripLeadNl_nil]; rfl
  | cons c cs =>
    cases ls with
    | false => rw [stripLeadNl_cons_false]; exact h
    | true => rw [stripLeadNl_cons_none (matchLeadNl_eq_none h)]; exact h

theorem headNotWs_collapseNl {l : List Char} (h : headNotWs l = true) :
    headNotWs (collapseNl l) = true := by
  cases l with
  | nil => rw [collapseNl_nil]; rfl
  | cons c cs =>
    have hwc : isWs c = false := by
      simp only [headNotWs, Bool.not_eq_true'] at h
      exact h
    rw [collapseNl_cons_notWs hwc]
    simp [headNotWs, hwc]

theorem headNotWs_collapseSp {l : List Char} (h : headNotWs l = true) :
    headNotWs (collapseSp l) = true := by
  cases l with
  | nil => rw [collapseSp_nil]; rfl
  | cons c cs =>
    have hwc : isWs c = false := by
      simp only [headNotWs, Bool.not_eq_true'] at h
      exact h
    rw [collapseSp_cons_notWs hwc]
    simp [headNotWs, hwc]

theorem all_ws_of_run {c : Char} {cs : List Char} (hwc : isWs c = true)
    (hdw : cs.dropWhile isWs = []) : ∀ x ∈ c :: cs, isWs x = true := by
  intro x hx
  rcases List.mem_cons.mp hx with h | h
  · subst h; exact hwc
  · exact List.dropWhile_eq_nil_iff.mp hdw x h

/-- `stripLeadNl` keeps the string nonempty and keeps its last character
whenever that character is not whitespace. -/
theorem lastNotWs_stripLeadNl : ∀ (n : Nat) (ls : Bool) (l : List Char), l.length ≤ n →
    lastNotWs l = true →
    lastNotWs (stripLeadNl ls l) = true ∧ (l ≠ [] → stripLeadNl ls l ≠ []) := by
  intro n
  induction n with
  | zero =>
    intro ls l hn _
    have : l = [] := List.eq_nil_of_length_eq_zero (Nat.le_zero.mp hn)
    subst this
    rw [stripLeadNl_nil]
    exact ⟨rfl, fun h => absurd rfl h⟩
  | succ m ih =>
    intro ls l hn hlast
    cases l with
    | nil =>
      rw [stripLeadNl_nil]
      exact ⟨rfl, fun h => absurd rfl h⟩
    | cons c cs =>
      have hstep : ∀ b : Bool,
          lastNotWs (c :: stripLeadNl b cs) = true ∧ (c :: stripLeadNl b cs) ≠ [] := by
        intro b
        cases hcs : cs with
        | nil =>
          subst hcs
          rw [stripLeadNl_nil]
          exact ⟨hlast, by simp⟩
        | cons d ds =>
          have hne : cs ≠ [] := by rw [hcs]; simp
          have hl2 : lastNotWs cs = true := by
            have : lastNotWs ([c] ++ cs) = lastNotWs cs := lastNotWs_append hne
            rw [← this]
            exact hlast
          rw [← hcs]
          have hcs_len : cs.length ≤ m := by simpa using hn
          obtain ⟨h1, h2⟩ := ih b cs hcs_len hl2
          have h3 : stripLeadNl b cs ≠ [] := h2 hne
          constructor
          · have : lastNotWs ([c] ++ stripLeadNl b cs) = lastNotWs (stripLeadNl b cs) :=
              lastNotWs_append h3
            simpa using this.trans h1
          · simp
      cases ls with
      | false =>
        rw [stripLeadNl_cons_false]
        exact ⟨(hstep _).1, fun _ => (hstep _).2⟩
      | true =>
        cases hm : matchLeadNl (c :: cs) with
        | none =>
          rw [stripLeadNl_cons_none hm]
          exact ⟨(hstep _).1, fun _ => (hstep _).2⟩
        | some r =>
          rw [stripLeadNl_cons_some hm]
          obtain ⟨t, hat, hr⟩ := matchLeadNl_some_shape hm
          have hdne : (c :: cs).dropWhile isWs ≠ [] :=
            dropWhile_ne_nil_of_lastNotWs (by simp) hlast
          have hrne : r ≠ [] := by
            rw [hr]
            intro habs
            exact hdne (List.append_eq_nil.mp habs).2
          have hrlast : lastNotWs r = true := by
            rw [hr, lastNotWs_append hdne]
            exact lastNotWs_dropWhile hdne hlast
          have hrlen : r.length ≤ m := by
            have := matchLeadNl_length hm
            simp only [List.length_cons] at this hn
            omega
          obtain ⟨h1, h2⟩ := ih true r hrlen hrlast
          exact ⟨h1, fun _ => h2 hrne⟩

/-- `collapseNl` keeps the string nonempty and its last character non-whitespace. -/
theorem lastNotWs_collapseNl : ∀ (n : Nat) (l : List Char), l.length ≤ n →
    lastNotWs l = true →
    lastNotWs (collapseNl l) = true ∧ (l ≠ [] → collapseNl l ≠ []) := by
  intro n
  induction n with
  | zero =>
    intro l hn _
    have : l = [] := List.eq_nil_of_length_eq_zero (Nat.le_zero.mp hn)
    subst this
    rw [collapseNl_nil]
    exact ⟨rfl, fun h => absurd rfl h⟩
  | succ m ih =>
    intro l hn hlast
    cases l with
    | nil =>
      rw [collapseNl_nil]
      exact ⟨rfl, fun h => absurd rfl h⟩
    | cons c cs =>
      cases hwc : isWs c with
      | false =>
        rw [collapseNl_cons_notWs hwc]
        cases hcs : cs with
        | nil =>
          subst hcs
          rw [collapseNl_nil]
          exact ⟨hlast, by simp⟩
        | cons d ds =>
          have hne : cs ≠ [] := by rw [hcs]; simp
          rw [← hcs]
          have hl2 : lastNotWs cs = true := by
            have := lastNotWs_append (u := [c]) hne
            rw [← this]
            exact hlast
          obtain ⟨h1, h2⟩ := ih cs (by simpa using hn) hl2
          have h3 : collapseNl cs ≠ [] := h2 hne
          constructor
          · have := lastNotWs_append (u := [c]) h3
            simpa using this.trans h1
          · simp
      | true =>
        rw [collapseNl_cons_ws hwc]
        have hdne : cs.dropWhile isWs ≠ [] := by
          intro habs
          have hall : ∀ x ∈ c :: cs, isWs x = true := all_ws_of_run hwc habs
          rw [not_lastNotWs_of_all_ws (by simp) hall] at hlast
          cases hlast
        have hl2 : lastNotWs (cs.dropWhile isWs) = true := by
          have hsplit : lastNotWs (c :: cs) =
              lastNotWs ((c :: cs.takeWhile isWs) ++ cs.dropWhile isWs) := by
            rw [List.cons_append, List.takeWhile_append_dropWhile]
          rw [hsplit, lastNotWs_append hdne] at hlast
          exact hlast
        have hdlen : (cs.dropWhile isWs).length ≤ m := by
          have := (List.dropWhile_suffix (l := cs) isWs).length_le
          simp only [List.length_cons] at hn
          omega
        obtain ⟨h1, h2⟩ := ih (cs.dropWhile isWs) hdlen hl2
        have h3 : collapseNl (cs.dropWhile isWs) ≠ [] := h2 hdne
        constructor
        · rw [lastNotWs_append h3]
          exact h1
        · intro _
          intro habs
          exact h3 (List.append_eq_nil.mp habs).2

/-- `collapseSp` keeps the string nonempty and its last character non-whitespace. -/
theorem lastNotWs_collapseSp : ∀ (n : Nat) (l : List Char), l.length ≤ n →
    lastNotWs l = true →
    lastNotWs (collapseSp l) = true ∧ (l ≠ [] → collapseSp l ≠ []) := by
  intro n
  induction n with
  | zero =>
    intro l hn _
    have : l = [] := List.eq_nil_of_length_eq_zero (Nat.le_zero.mp hn)
    subst this
    rw [collapseSp_nil]
    exact ⟨rfl, fun h => absurd rfl h⟩
  | succ m ih =>
    intro l hn hlast
    cases l with
    | nil =>
      rw [collapseSp_nil]
      exact ⟨rfl, fun h => absurd rfl h⟩
    | cons c cs =>
      cases hwc : isWs c with
      | false =>
        rw [collapseSp_cons_notWs hwc]
        cases hcs : cs with
        | nil =>
          subst hcs
          rw [collapseSp_nil]
          exact ⟨hlast, by simp⟩
        | cons d ds =>
          have hne : cs ≠ [] := by rw [hcs]; simp
          rw [← hcs]
          have hl2 : lastNotWs cs = true := by
            have := lastNotWs_append (u := [c]) hne
            rw [← this]
            exact hlast
          obtain ⟨h1, h2⟩ := ih cs (by simpa using hn) hl2
          have h3 : collapseSp cs ≠ [] := h2 hne
          constructor
          · have := lastNotWs_append (u := [c]) h3
            simpa using this.trans h1
          · simp
      | true =>
        rw [collapseSp_cons_ws hwc]
        have hdne : cs.dropWhile isWs ≠ [] := by
          intro habs
          have hall : ∀ x ∈ c :: cs, isWs x = true := all_ws_of_run hwc habs
          rw [not_lastNotWs_of_all_ws (by simp) hall] at hlast
          cases hlast
        have hl2 : lastNotWs (cs.dropWhile isWs) = true := by
          have hsplit : lastNotWs (c :: cs) =
              lastNotWs ((c :: cs.takeWhile isWs) ++ cs.dropWhile isWs) := by
            rw [List.cons_append, List.takeWhile_append_dropWhile]
          rw [hsplit, lastNotWs_append hdne] at hlast
          exact hlast
        have hdlen : (cs.dropWhile isWs).length ≤ m := by
          have := (List.dropWhile_suffix (l := cs) isWs).length_le
          simp only [List.length_cons] at hn
          omega
        obtain ⟨h1, h2⟩ := ih (cs.dropWhile isWs) hdlen hl2
        have h3 : collapseSp (cs.dropWhile isWs) ≠ [] := h2 hdne
        constructor
        · rw [lastNotWs_append h3]
          exact h1
        · intro _
          intro habs
          exact h3 (List.append_eq_nil.mp habs).2

theorem isolatedWs_collapseSp : ∀ (n : Nat) (l : List Char), l.length ≤ n →
    isolatedWs (collapseSp l) = true := by
  intro n
  induction n with
  | zero =>
    intro l hn
    have : l = [] := List.eq_nil_of_length_eq_zero (Nat.le_zero.mp hn)
    subst this
    rw [collapseSp_nil]
    rfl
  | succ m ih =>
    intro l hn
    cases l with
    | nil => rw [collapseSp_nil]; rfl
    | cons c cs =>
      cases hwc : isWs c with
      | false =>
        rw [collapseSp_cons_notWs hwc]
        exact isolatedWs_cons_of_not hwc (ih cs (by simpa using hn))
      | true =>
        rw [collapseSp_cons_ws hwc]
        have hdlen : (cs.dropWhile isWs).length ≤ m := by
          have := (List.dropWhile_suffix (l := cs) isWs).length_le
          simp only [List.length_cons] at hn
          omega
        have hhd : headNotWs (collapseSp (cs.dropWhile isWs)) = true :=
          headNotWs_collapseSp (headNotWs_dropWhile cs)
        have hiso : isolatedWs (collapseSp (cs.dropWhile isWs)) = true :=
          ih (cs.dropWhile isWs) hdlen
        cases htw : cs.takeWhile isWs with
        | nil =>
          rw [if_pos rfl]
          exact isolatedWs_cons_of_headNotWs hhd hiso
        | cons d ds =>
          rw [if_neg (by simp)]
          exact isolatedWs_cons_of_headNotWs hhd hiso

theorem notCRchar_of_not_isCRLF {c : Char} (h : isCRLF c = false) : c.toNat ≠ 0xd := by
  intro habs
  simp [isCRLF, habs] at h

theorem notCRchar_of_not_isWs {c : Char} (h : isWs c = false) : c.toNat ≠ 0xd := by
  intro habs
  simp [isWs, habs] at h

theorem noCR_collapseNl : ∀ (n : Nat) (l : List Char), l.length ≤ n →
    noCR (collapseNl l) = true := by
  intro n
  induction n with
  | zero =>
    intro l hn
    have : l = [] := List.eq_nil_of_length_eq_zero (Nat.le_zero.mp hn)
    subst this
    rw [collapseNl_nil]
    rfl
  | succ m ih =>
    intro l hn
    cases l with
    | nil => rw [collapseNl_nil]; rfl
    | cons c cs =>
      cases hwc : isWs c with
      | false =>
        rw [collapseNl_cons_notWs hwc]
        simp only [noCR, List.all_cons, Bool.and_eq_true, decide_eq_true_eq]
        exact ⟨notCRchar_of_not_isWs hwc, ih cs (by simpa using hn)⟩
      | true =>
        rw [collapseNl_cons_ws hwc]
        have hdlen : (cs.dropWhile isWs).length ≤ m := by
          have := (List.dropWhile_suffix (l := cs) isWs).length_le
          simp only [List.length_cons] at hn
          omega
        have hrest : noCR (collapseNl (cs.dropWhile isWs)) = true := ih _ hdlen
        simp only [noCR, List.all_append, Bool.and_eq_true]
        refine ⟨?_, hrest⟩
        cases hany : (c :: cs.takeWhile isWs).any isCRLF with
        | true =>
          rw [if_pos rfl]
          decide
        | false =>
          rw [if_neg (by simp)]
          have hAll : ∀ x ∈ c :: cs.takeWhile isWs, isCRLF x = false := by
            intro x hx
            cases hcx : isCRLF x with
            | false => rfl
            | true =>
              have : (c :: cs.takeWhile isWs).any isCRLF = true :=
                List.any_eq_true.mpr ⟨x, hx, hcx⟩
              rw [this] at hany
              cases hany
          rw [List.all_eq_true]
          intro x hx
          simpa using notCRchar_of_not_isCRLF (hAll x hx)

theorem noCR_collapseSp : ∀ (n : Nat) (l : List Char), l.length ≤ n →
    noCR l = true → noCR (collapseSp l) = true := by
  intro n
  induction n with
  | zero =>
    intro l hn _
    have : l = [] := List.eq_nil_of_length_eq_zero (Nat.le_zero.mp hn)
    subst this
    rw [collapseSp_nil]
    rfl
  | succ m ih =>
    intro l hn hcr
    cases l with
    | nil => rw [collapseSp_nil]; rfl
    | cons c cs =>
      have hcnat : c.toNat ≠ 0xd := by
        simp only [noCR, List.all_cons, Bool.and_eq_true, decide_eq_true_eq] at hcr
        exact hcr.1
      have hcs_cr : noCR cs = true := by
        simp only [noCR, List.all_cons, Bool.and_eq_true] at hcr
        exact hcr.2
      cases hwc : isWs c with
      | false =>
        rw [collapseSp_cons_notWs hwc]
        simp only [noCR, List.all_cons, Bool.and_eq_true, decide_eq_true_eq]
        exact ⟨hcnat, ih cs (by simpa using hn) hcs_cr⟩
      | true =>
        rw [collapseSp_cons_ws hwc]
        have hdlen : (cs.dropWhile isWs).length ≤ m := by
          have := (List.dropWhile_suffix (l := cs) isWs).length_le
          simp only [List.length_cons] at hn
          omega
        have hdcr : noCR (cs.dropWhile isWs) = true := by
          rw [noCR, List.all_eq_true]
          intro x hx
          have hx2 : x ∈ cs := (List.dropWhile_suffix isWs).subset hx
          rw [noCR, List.all_eq_true] at hcs_cr
          exact hcs_cr x hx2
        have hrest : noCR (collapseSp (cs.dropWhile isWs)) = true := ih _ hdlen hdcr
        simp only [noCR, List.all_append, Bool.and_eq_true]
        refine ⟨?_, hrest⟩
        cases htw : cs.takeWhile isWs with
        | nil =>
          rw [if_pos rfl]
          simp only [List.all_cons, List.all_nil, Bool.and_true, decide_eq_true_eq]
          exact hcnat
        | cons d ds =>
          rw [if_neg (by simp)]
          decide

theorem cleanResponse_isolatedWs (l : List Char) :
    isolatedWs (cleanResponse l) = true :=
  isolatedWs_collapseSp _ _ le_rfl

theorem cleanResponse_noCR (l : List Char) : noCR (cleanResponse l) = true :=
  noCR_collapseSp _ _ le_rfl (noCR_collapseNl _ _ le_rfl)

theorem cleanResponse_headNotWs (l : List Char) :
    headNotWs (cleanResponse l) = true :=
  headNotWs_collapseSp (headNotWs_collapseNl (headNotWs_stripLeadNl (headNotWs_jsTrim l)))

theorem cleanResponse_lastNotWs (l : List Char) :
    lastNotWs (cleanResponse l) = true :=
  (lastNotWs_collapseSp _ _ le_rfl
    (lastNotWs_collapseNl _ _ le_rfl
      (lastNotWs_stripLeadNl _ true _ le_rfl (lastNotWs_jsTrim l)).1).1).1

theorem cleanResponse_ne_nil {l : List Char} (h : jsTrim l ≠ []) :
    cleanResponse l ≠ [] := by
  have h1 := lastNotWs_stripLeadNl (jsTrim l).length true (jsTrim l) le_rfl (lastNotWs_jsTrim l)
  have h2 := lastNotWs_collapseNl (stripLeadNl true (jsTrim l)).length _ le_rfl h1.1
  have h3 := lastNotWs_collapseSp (collapseNl (stripLeadNl true (jsTrim l))).length _ le_rfl h2.1
  exact h3.2 (h2.2 (h1.2 h))

/-- A string already in cleaned form is a fixed point of every stage. -/
theorem cleanResponse_eq_self {l : List Char} (hh : headNotWs l = true)
    (hl : lastNotWs l = true) (hiso : isolatedWs l = true) (hcr : noCR l = true) :
    cleanResponse l = l := by
  unfold cleanResponse
  rw [jsTrim_eq_self hh hl]
  rw [stripLeadNl_id l.length true l le_rfl hiso hcr (fun _ => hh)]
  rw [collapseNl_id l.length l le_rfl hiso hcr]
  rw [collapseSp_id l.length l le_rfl hiso]

theorem jsTrim_cleanResponse (l : List Char) :
    jsTrim (cleanResponse l) = cleanResponse l :=
  jsTrim_eq_self (cleanResponse_headNotWs l) (cleanResponse_lastNotWs l)

theorem callAux_eq_done {cfg : GeminiConfig} {t : Nat → Outcome} {attempt : Nat}
    {b : GeminiResponse} (h : classifyAttempt (t attempt) = .done b) :
    callAux cfg t attempt = ⟨.ok b, attempt + 1, []⟩ := by
  rw [callAux.eq_def, h]

theorem callAux_eq_fatal {cfg : GeminiConfig} {t : Nat → Outcome} {attempt : Nat}
    {e : JsError} (h : classifyAttempt (t attempt) = .fatal e) :
    callAux cfg t attempt = ⟨.error e, attempt + 1, []⟩ := by
  rw [callAux.eq_def, h]

theorem callAux_eq_retry_stop {cfg : GeminiConfig} {t : Nat → Outcome} {attempt : Nat}
    {e : JsError} (h : classifyAttempt (t attempt) = .retryable e)
    (h2 : ¬ attempt < cfg.maxRetries) :
    callAux cfg t attempt = ⟨.error e, attempt + 1, []⟩ := by
  rw [callAux.eq_def, h]
  simp [h2]

theorem callAux_eq_retry_go {cfg : GeminiConfig} {t : Nat → Outcome} {attempt : Nat}
    {e : JsError} (h : classifyAttempt (t attempt) = .retryable e)
    (h2 : attempt < cfg.maxRetries) :
    callAux cfg t attempt =
      ⟨(callAux cfg t (attempt + 1)).result, (callAux cfg t (attempt + 1)).attempts,
        cfg.retryDelay * 2 ^ attempt :: (callAux cfg t (attempt + 1)).delays⟩ := by
  rw [callAux.eq_def, h]
  simp [h2]

/-- When every attempt's outcome is retryable, the loop from attempt `k` makes
all remaining attempts, throws the error recorded at the last one, and sleeps
`retryDelay * 2 ^ a` after each failed attempt `a`. -/
theorem callAux_all_retryable (cfg : GeminiConfig) (t : Nat → Outcome) (e : Nat → JsError)
    (h : ∀ a, classifyAttempt (t a) = .retryable (e a)) :
    ∀ (n k : Nat), cfg.maxRetries - k = n → k ≤ cfg.maxRetries →
      callAux cfg t k = ⟨.error (e cfg.maxRetries), cfg.maxRetries + 1,
        (List.range n).map fun i => cfg.retryDelay * 2 ^ (k + i)⟩ := by
  intro n
  induction n with
  | zero =>
    intro k hn hk
    have hkk : k = cfg.maxRetries := by omega
    subst hkk
    rw [callAux_eq_retry_stop (h cfg.maxRetries) (by omega)]
    simp
  | succ m ih =>
    intro k hn hk
    have hlt : k < cfg.maxRetries := by omega
    rw [callAux_eq_retry_go (h k) hlt, ih (k + 1) (by omega) (by omega)]
    simp only [List.range_succ_eq_map, List.map_cons, List.map_map, Nat.add_zero,
      CallResult.mk.injEq, true_and]
    congr 1
    apply List.map_congr_left
    intro i _
    simp only [Function.comp_apply]
    have h2 : k + 1 + i = k + Nat.succ i := by omega
    rw [h2]

/-- The loop from attempt `k` makes between `k + 1` and `maxRetries + 1`
attempts in total. -/
theorem callAux_attempts_bounds (cfg : GeminiConfig) (t : Nat → Outcome) :
    ∀ (n k : Nat), cfg.maxRetries - k = n → k ≤ cfg.maxRetries →
      k + 1 ≤ (callAux cfg t k).attempts ∧
      (callAux cfg t k).attempts ≤ cfg.maxRetries + 1 := by
  intro n
  induction n with
  | zero =>
    intro k hn hk
    have hkk : k = cfg.maxRetries := by omega
    subst hkk
    cases hc : classifyAttempt (t cfg.maxRetries) with
    | done b => rw [callAux_eq_done hc]; dsimp only; omega
    | fatal e => rw [callAux_eq_fatal hc]; dsimp only; omega
    | retryable e => rw [callAux_eq_retry_stop hc (by omega)]; dsimp only; omega
  | succ m ih =>
    intro k hn hk
    have hlt : k < cfg.maxRetries := by omega
    cases hc : classifyAttempt (t k) with
    | done b => rw [callAux_eq_done hc]; dsimp only; omega
    | fatal e => rw [callAux_eq_fatal hc]; dsimp only; omega
    | retryable e =>
      rw [callAux_eq_retry_go hc hlt]
      have := ih (k + 1) (by omega) (by omega)
      dsimp only
      omega

/-- Every recorded backoff delay at position `i` of the loop from attempt `k`
equals `retryDelay * 2 ^ (k + i)`. -/
theorem callAux_delays_elem (cfg : GeminiConfig) (t : Nat → Outcome) :
    ∀ (n k : Nat), cfg.maxRetries - k = n → ∀ (i d : Nat),
      (callAux cfg t k).delays.get? i = some d → d = cfg.retryDelay * 2 ^ (k + i) := by
  intro n
  induction n with
  | zero =>
    intro k hn i d hd
    cases hc : classifyAttempt (t k) with
    | done b => rw [callAux_eq_done hc] at hd; dsimp only at hd; cases hd
    | fatal e => rw [callAux_eq_fatal hc] at hd; dsimp only at hd; cases hd
    | retryable e =>
      rw [callAux_eq_retry_stop hc (by omega)] at hd
      dsimp only at hd
      cases hd
  | succ m ih =>
    intro k hn i d hd
    cases hc : classifyAttempt (t k) with
    | done b => rw [callAux_eq_done hc] at hd; dsimp only at hd; cases hd
    | fatal e => rw [callAux_eq_fatal hc] at hd; dsimp only at hd; cases hd
    | retryable e =>
      by_cases hlt : k < cfg.maxRetries
      · rw [callAux_eq_retry_go hc hlt] at hd
        dsimp only at hd
        cases i with
        | zero =>
          simp only [List.get?_cons_zero] at hd
          cases hd
          rw [Nat.add_zero]
        | succ j =>
          simp only [List.get?_cons_succ] at hd
          have := ih (k + 1) (by omega) j d hd
          rw [this]
          have h2 : k + (j + 1) = k + 1 + j := by omega
          rw [h2]
      · rw [callAux_eq_retry_stop hc hlt] at hd
        dsimp only at hd
        cases hd

theorem callAuxI_succ_done {t : Nat → Outcome} {k : Nat} {b : GeminiResponse}
    (sched : Nat → Option GeminiConfigPatch) (fuel : Nat) (cfg : GeminiConfig)
    (h : classifyAttempt (t k) = .done b) :
    callAuxI t sched (fuel + 1) k cfg =
      ⟨.ok b, k + 1, [], [cfg.timeout], applyPatch? (sched k) cfg⟩ := by
  simp only [callAuxI, h]

theorem callAuxI_succ_fatal {t : Nat → Outcome} {k : Nat} {e : JsError}
    (sched : Nat → Option GeminiConfigPatch) (fuel : Nat) (cfg : GeminiConfig)
    (h : classifyAttempt (t k) = .fatal e) :
    callAuxI t sched (fuel + 1) k cfg =
      ⟨.error e, k + 1, [], [cfg.timeout], applyPatch? (sched k) cfg⟩ := by
  simp only [callAuxI, h]

theorem callAuxI_succ_retry_stop {t : Nat → Outcome} {k : Nat} {e : JsError}
    (sched : Nat → Option GeminiConfigPatch) (fuel : Nat) (cfg : GeminiConfig)
    (h : classifyAttempt (t k) = .retryable e)
    (h2 : ¬ k < (applyPatch? (sched k) cfg).maxRetries) :
    callAuxI t sched (fuel + 1) k cfg =
      ⟨.error e, k + 1, [], [cfg.timeout], applyPatch? (sched k) cfg⟩ := by
  simp only [callAuxI, h]
  rw [if_neg h2]

theorem callAuxI_succ_retry_go {t : Nat → Outcome} {k : Nat} {e : JsError}
    (sched : Nat → Option GeminiConfigPatch) (fuel : Nat) (cfg : GeminiConfig)
    (h : classifyAttempt (t k) = .retryable e)
    (h2 : k < (applyPatch? (sched k) cfg).maxRetries) :
    callAuxI t sched (fuel + 1) k cfg =
      (let cfg2 := applyPatch? (sched k) cfg
       let r := callAuxI t sched fuel (k + 1) cfg2
       ⟨r.result, r.attempts, cfg2.retryDelay * 2 ^ k :: r.delays,
        cfg.timeout :: r.timeoutsUsed, r.finalConfig⟩) := by
  simp only [callAuxI, h]
  rw [if_pos h2]

theorem configAt_shift (sched : Nat → Option GeminiConfigPatch) (cfg : GeminiConfig)
    (k : Nat) : ∀ n, configAt (fun j => sched (k + j)) cfg (n + 1) =
      configAt (fun j => sched (k + 1 + j)) (applyPatch? (sched k) cfg) n := by
  intro n
  induction n with
  | zero =>
    show applyPatch? (sched (k + 0)) cfg = applyPatch? (sched k) cfg
    rw [Nat.add_zero]
  | succ m ih =>
    show applyPatch? (sched (k + (m + 1))) (configAt (fun j => sched (k + j)) cfg (m + 1)) =
      applyPatch? (sched (k + 1 + m)) (configAt (fun j => sched (k + 1 + j))
        (applyPatch? (sched k) cfg) m)
    rw [ih]
    have h2 : k + (m + 1) = k + 1 + m := by omega
    rw [h2]

/-- Each backoff delay of the interleaved loop is computed from the
configuration as updated by the patches applied through the failing attempt. -/
theorem callAuxI_delays (t : Nat → Outcome) (sched : Nat → Option GeminiConfigPatch) :
    ∀ (fuel k : Nat) (cfg : GeminiConfig) (i d : Nat),
      (callAuxI t sched fuel k cfg).delays.get? i = some d →
      d = (configAt (fun j => sched (k + j)) cfg (i + 1)).retryDelay * 2 ^ (k + i) := by
  intro fuel
  induction fuel with
  | zero =>
    intro k cfg i d hd
    simp only [callAuxI, List.get?_nil] at hd
    cases hd
  | succ m ih =>
    intro k cfg i d hd
    cases hc : classifyAttempt (t k) with
    | done b =>
      rw [callAuxI_succ_done sched m cfg hc] at hd
      dsimp only at hd
      cases hd
    | fatal e =>
      rw [callAuxI_succ_fatal sched m cfg hc] at hd
      dsimp only at hd
      cases hd
    | retryable e =>
      by_cases h2 : k < (applyPatch? (sched k) cfg).maxRetries
      · rw [callAuxI_succ_retry_go sched m cfg hc h2] at hd
        dsimp only at hd
        cases i with
        | zero =>
          simp only [List.get?_cons_zero] at hd
          cases hd
          show (applyPatch? (sched k) cfg).retryDelay * 2 ^ k =
            (configAt (fun j => sched (k + j)) cfg 1).retryDelay * 2 ^ (k + 0)
          rw [Nat.add_zero]
          show (applyPatch? (sched k) cfg).retryDelay * 2 ^ k =
            (applyPatch? (sched (k + 0)) cfg).retryDelay * 2 ^ k
          rw [Nat.add_zero]
        | succ j =>
          simp only [List.get?_cons_succ] at hd
          have := ih (k + 1) (applyPatch? (sched k) cfg) j d hd
          rw [this, ← configAt_shift sched cfg k (j + 1)]
          have h3 : k + 1 + j = k + (j + 1) := by omega
          rw [h3]
      · rw [callAuxI_succ_retry_stop sched m cfg hc h2] at hd
        dsimp only at hd
        cases hd

/-- Each attempt of the interleaved loop is issued with the `timeout` of the
configuration current when that attempt starts. -/
theorem callAuxI_timeouts (t : Nat → Outcome) (sched : Nat → Option GeminiConfigPatch) :
    ∀ (fuel k : Nat) (cfg : GeminiConfig) (i τ : Nat),
      (callAuxI t sched fuel k cfg).timeoutsUsed.get? i = some τ →
      τ = (configAt (fun j => sched (k + j)) cfg i).timeout := by
  intro fuel
  induction fuel with
  | zero =>
    intro k cfg i τ hτ
    simp only [callAuxI, List.get?_nil] at hτ
    cases hτ
  | succ m ih =>
    intro k cfg i τ hτ
    have hsingle : ∀ i τ, ([cfg.timeout] : List Nat).get? i = some τ →
        τ = (configAt (fun j => sched (k + j)) cfg i).timeout := by
      intro i τ hh
      cases i with
      | zero =>
        simp only [List.get?_cons_zero] at hh
        cases hh
        rfl
      | succ j => simp at hh
    cases hc : classifyAttempt (t k) with
    | done b =>
      rw [callAuxI_succ_done sched m cfg hc] at hτ
      exact hsingle i τ hτ
    | fatal e =>
      rw [callAuxI_succ_fatal sched m cfg hc] at hτ
      exact hsingle i τ hτ
    | retryable e =>
      by_cases h2 : k < (applyPatch? (sched k) cfg).maxRetries
      · rw [callAuxI_succ_retry_go sched m cfg hc h2] at hτ
        dsimp only at hτ
        cases i with
        | zero =>
          simp only [List.get?_cons_zero] at hτ
          cases hτ
          rfl
        | succ j =>
          simp only [List.get?_cons_succ] at hτ
          have := ih (k + 1) (applyPatch? (sched k) cfg) j τ hτ
          rw [this, ← configAt_shift sched cfg k j]
      · rw [callAuxI_succ_retry_stop sched m cfg hc h2] at hτ
        exact hsingle i τ hτ

theorem classify_429 (m : Option String) :
    classifyAttempt (.httpError 429 m) = .retryable (.apiError "Rate limit exceeded" 429) := by
  show (if (429 : Nat) = 401 then AttemptStep.fatal (.apiError "Invalid API key" 401)
    else if (429 : Nat) = 403 then
      AttemptStep.fatal (.apiError "API access forbidden - check permissions" 403)
    else if (429 : Nat) = 429 then
      AttemptStep.retryable (.apiError "Rate limit exceeded" 429)
    else if 400 ≤ (429 : Nat) ∧ (429 : Nat) < 500 then
      AttemptStep.fatal (.apiError (httpErrorMessage 429 m) 429)
    else AttemptStep.retryable (.apiError (httpErrorMessage 429 m) 429)) =
    AttemptStep.retryable (.apiError "Rate limit exceeded" 429)
  rw [if_neg (by omega), if_neg (by omega), if_pos rfl]

theorem classify_5xx {s : Nat} (h : 500 ≤ s) (m : Option String) :
    classifyAttempt (.httpError s m) = .retryable (.apiError (httpErrorMessage s m) s) := by
  show (if s = 401 then AttemptStep.fatal (.apiError "Invalid API key" 401)
    else if s = 403 then
      AttemptStep.fatal (.apiError "API access forbidden - check permissions" 403)
    else if s = 429 then AttemptStep.retryable (.apiError "Rate limit exceeded" 429)
    else if 400 ≤ s ∧ s < 500 then AttemptStep.fatal (.apiError (httpErrorMessage s m) s)
    else AttemptStep.retryable (.apiError (httpErrorMessage s m) s)) =
    AttemptStep.retryable (.apiError (httpErrorMessage s m) s)
  rw [if_neg (by omega), if_neg (by omega), if_neg (by omega), if_neg (by omega)]

theorem classify_401 (m : Option String) :
    classifyAttempt (.httpError 401 m) = .fatal (.apiError "Invalid API key" 401) := by
  show (if (401 : Nat) = 401 then AttemptStep.fatal (.apiError "Invalid API key" 401)
    else if (401 : Nat) = 403 then
      AttemptStep.fatal (.apiError "API access forbidden - check permissions" 403)
    else if (401 : Nat) = 429 then
      AttemptStep.retryable (.apiError "Rate limit exceeded" 429)
    else if 400 ≤ (401 : Nat) ∧ (401 : Nat) < 500 then
      AttemptStep.fatal (.apiError (httpErrorMessage 401 m) 401)
    else AttemptStep.retryable (.apiError (httpErrorMessage 401 m) 401)) =
    AttemptStep.fatal (.apiError "Invalid API key" 401)
  rw [if_pos rfl]

/-- C3: for every configuration with `maxRetries = r`, `generate` makes
exactly `r + 1` HTTP attempts when every attempt returns HTTP 429
(respectively any 5xx) and then fails with the rate-limited error
(respectively the provider error carrying the 5xx status); when an attempt
returns HTTP 401 it makes no further attempts and fails immediately with the
invalid-credentials error, so a first-attempt 401 yields exactly 1 attempt. -/
theorem claim_C3_retry_attempt_counts (cfg : GeminiConfig) (body : GeminiRequest)
    (t429 t5 t401 : Nat → Outcome) (m429 m5 : Nat → Option String) (sts : Nat → Nat)
    (m401 : Option String) :
    ((∀ a, t429 a = .httpError 429 (m429 a)) →
      (callGeminiAPI cfg body t429).attempts = cfg.maxRetries + 1 ∧
      (callGeminiAPI cfg body t429).result = .error (.apiError "Rate limit exceeded" 429)) ∧
    ((∀ a, 500 ≤ sts a ∧ sts a ≤ 599 ∧ t5 a = .httpError (sts a) (m5 a)) →
      (callGeminiAPI cfg body t5).attempts = cfg.maxRetries + 1 ∧
      (callGeminiAPI cfg body t5).result =
        .error (.apiError (httpErrorMessage (sts cfg.maxRetries) (m5 cfg.maxRetries))
          (sts cfg.maxRetries)) ∧
      500 ≤ sts cfg.maxRetries) ∧
    (t401 0 = .httpError 401 m401 →
      (callGeminiAPI cfg body t401).attempts = 1 ∧
      (callGeminiAPI cfg body t401).result = .error (.apiError "Invalid API key" 401)) := by
  refine ⟨?_, ?_, ?_⟩
  · intro h
    have hcl : ∀ a, classifyAttempt (t429 a) =
        .retryable (.apiError "Rate limit exceeded" 429) := by
      intro a
      rw [h a]
      exact classify_429 (m429 a)
    have := callAux_all_retryable cfg t429 (fun _ => .apiError "Rate limit exceeded" 429)
      hcl cfg.maxRetries 0 (by omega) (by omega)
    unfold callGeminiAPI
    rw [this]
    exact ⟨rfl, rfl⟩
  · intro h
    have hcl : ∀ a, classifyAttempt (t5 a) =
        .retryable (.apiError (httpErrorMessage (sts a) (m5 a)) (sts a)) := by
      intro a
      rw [(h a).2.2]
      exact classify_5xx (h a).1 (m5 a)
    have := callAux_all_retryable cfg t5
      (fun a => .apiError (httpErrorMessage (sts a) (m5 a)) (sts a))
      hcl cfg.maxRetries 0 (by omega) (by omega)
    unfold callGeminiAPI
    rw [this]
    exact ⟨rfl, rfl, (h cfg.maxRetries).1⟩
  · intro h
    have hcl : classifyAttempt (t401 0) = .fatal (.apiError "Invalid API key" 401) := by
      rw [h]
      exact classify_401 m401
    unfold callGeminiAPI
    rw [callAux_eq_fatal hcl]
    exact ⟨rfl, rfl⟩

/-- Witness of C3: the default configuration (maxRetries 2) makes 3 attempts
on persistent 429 and on persistent 500, and 1 attempt on 401. -/
theorem claim_C3_retry_attempt_counts_witness :
    ((callGeminiAPI DEFAULT_CONFIG emptyReq tAll429).attempts = DEFAULT_CONFIG.maxRetries + 1 ∧
      (callGeminiAPI DEFAULT_CONFIG emptyReq tAll429).result =
        .error (.apiError "Rate limit exceeded" 429)) ∧
    (callGeminiAPI DEFAULT_CONFIG emptyReq tAll500).attempts = DEFAULT_CONFIG.maxRetries + 1 ∧
    (callGeminiAPI DEFAULT_CONFIG emptyReq tAll401).attempts = 1 ∧
    (callGeminiAPI DEFAULT_CONFIG emptyReq tAll401).result =
      .error (.apiError "Invalid API key" 401) := by
  obtain ⟨h1, h2, h3⟩ := claim_C3_retry_attempt_counts DEFAULT_CONFIG emptyReq
    tAll429 tAll500 tAll401 (fun _ => none) (fun _ => none) (fun _ => 500) none
  have r1 := h1 (fun a => rfl)
  have r2 := h2 (fun a => ⟨by omega, by omega, rfl⟩)
  have r3 := h3 rfl
  exact ⟨⟨r1.1, r1.2⟩, r2.1, r3.1, r3.2⟩

theorem checkHealth_attempts (cfg : GeminiConfig) (t : Nat → Outcome) :
    (checkHealth cfg t).attempts = (callAux cfg t 0).attempts := by
  unfold checkHealth callGeminiAPI
  cases h : (callAux cfg t 0).result with
  | ok v => simp [h]
  | error e => simp [h]

/-- C4 corrected (amended claim): `checkHealth` routes through the same
retrying `callGeminiAPI` loop as `generate`, so it performs between 1 and
`maxRetries + 1` HTTP attempts per invocation — exactly `maxRetries + 1` when
every attempt fails retryably — not exactly one attempt. -/
theorem claim_C4_health_retries (cfg : GeminiConfig) (t : Nat → Outcome) (e : Nat → JsError) :
    1 ≤ (checkHealth cfg t).attempts ∧
    (checkHealth cfg t).attempts ≤ cfg.maxRetries + 1 ∧
    ((∀ a, classifyAttempt (t a) = .retryable (e a)) →
      (checkHealth cfg t).attempts = cfg.maxRetries + 1 ∧
      (checkHealth cfg t).health.api_status = "offline") := by
  have hb := callAux_attempts_bounds cfg t cfg.maxRetries 0 (by omega) (by omega)
  rw [checkHealth_attempts]
  refine ⟨by omega, by omega, ?_⟩
  intro h
  have := callAux_all_retryable cfg t e h cfg.maxRetries 0 (by omega) (by omega)
  constructor
  · rw [this]
  · unfold checkHealth callGeminiAPI
    rw [this]

/-- Counterexample to C4 as stated: with the default configuration
(maxRetries 2) and a provider that always answers 500, `checkHealth` makes 3
HTTP attempts, not 1. -/
theorem claim_C4_counterexample :
    (checkHealth DEFAULT_CONFIG tAll500).attempts = 3 ∧
    ¬ (checkHealth DEFAULT_CONFIG tAll500).attempts = 1 := by
  have h3 : (checkHealth DEFAULT_CONFIG tAll500).attempts = 3 := by
    rw [checkHealth_attempts]
    have hcl : ∀ a, classifyAttempt (tAll500 a) =
        .retryable (.apiError (httpErrorMessage 500 none) 500) :=
      fun a => classify_5xx (by omega) none
    rw [callAux_all_retryable DEFAULT_CONFIG tAll500 _ hcl DEFAULT_CONFIG.maxRetries 0
      (by omega) (by omega)]
    rfl
  exact ⟨h3, by rw [h3]; omega⟩

/-- Witness of the amended C4 at the default configuration and an all-500
provider. -/
theorem claim_C4_health_retries_witness :
    1 ≤ (checkHealth DEFAULT_CONFIG tAll500).attempts ∧
    (checkHealth DEFAULT_CONFIG tAll500).attempts = DEFAULT_CONFIG.maxRetries + 1 ∧
    (checkHealth DEFAULT_CONFIG tAll500).health.api_status = "offline" := by
  obtain ⟨h1, _, h3⟩ := claim_C4_health_retries DEFAULT_CONFIG tAll500
    (fun _ => .apiError (httpErrorMessage 500 none) 500)
  have r := h3 (fun a => classify_5xx (by omega) none)
  exact ⟨h1, r.1, r.2⟩

/-- C5 corrected (amended claim): whenever `generate` retries after a
retryable failure, the backoff delay inserted before attempt `k` (0-indexed,
`1 ≤ k ≤ maxRetries`) equals `retryBaseDelayMs * 2 ^ (k - 1)` — the exponent
is the index of the attempt that just failed, not of the upcoming one.  Here
`delays.get? i` is the delay slept before attempt `i + 1`. -/
theorem claim_C5_backoff (cfg : GeminiConfig) (body : GeminiRequest) (t : Nat → Outcome)
    (i d : Nat) (h : (callGeminiAPI cfg body t).delays.get? i = some d) :
    d = cfg.retryDelay * 2 ^ i := by
  have := callAux_delays_elem cfg t cfg.maxRetries 0 (by omega) i d h
  rwa [Nat.zero_add] at this

/-- Counterexample to C5 as stated: with `retryBaseDelayMs = 1000` and
`maxRetries = 1` on persistent 429, the delay before attempt 1 is 1000, not
`1000 * 2 ^ 1 = 2000`. -/
theorem claim_C5_counterexample :
    (callGeminiAPI cfgRetryOne emptyReq tAll429).delays = [1000] ∧
    cfgRetryOne.retryDelay * 2 ^ 1 = 2000 ∧
    ¬ (callGeminiAPI cfgRetryOne emptyReq tAll429).delays.get? 0 =
        some (cfgRetryOne.retryDelay * 2 ^ 1) := by
  have hcl : ∀ a, classifyAttempt (tAll429 a) =
      .retryable (.apiError "Rate limit exceeded" 429) := fun a => classify_429 none
  have h1 : (callGeminiAPI cfgRetryOne emptyReq tAll429).delays = [1000] := by
    unfold callGeminiAPI
    rw [callAux_all_retryable cfgRetryOne tAll429 _ hcl cfgRetryOne.maxRetries 0
      (by omega) (by omega)]
    rfl
  refine ⟨h1, rfl, ?_⟩
  rw [h1]
  decide

/-- Witness of the amended C5: the recorded delay before attempt 1 equals
`retryDelay * 2 ^ 0`. -/
theorem claim_C5_backoff_witness :
    (callGeminiAPI cfgRetryOne emptyReq tAll429).delays.get? 0 = some 1000 ∧
    1000 = cfgRetryOne.retryDelay * 2 ^ 0 := by
  have hcl : ∀ a, classifyAttempt (tAll429 a) =
      .retryable (.apiError "Rate limit exceeded" 429) := fun a => classify_429 none
  have h1 : (callGeminiAPI cfgRetryOne emptyReq tAll429).delays.get? 0 = some 1000 := by
    unfold callGeminiAPI
    rw [callAux_all_retryable cfgRetryOne tAll429 _ hcl cfgRetryOne.maxRetries 0
      (by omega) (by omega)]
    rfl
  exact ⟨h1, claim_C5_backoff cfgRetryOne emptyReq tAll429 0 1000 h1⟩

/-- C9 corrected (amended claim): a call fixes the model (URL) and the
request body's generation parameters synchronously at its start, but it does
not snapshot the whole configuration: each attempt re-reads `this.config`, so
an update while the call is in flight changes the timeout, the retry budget
and the backoff of the remaining attempts of that same call.  Each backoff
delay is computed from the configuration after the updates applied through
the failing attempt, and each attempt's timeout from the configuration
current when that attempt starts. -/
theorem claim_C9_config_reads (cfg : GeminiConfig) (t : Nat → Outcome)
    (sched : Nat → Option GeminiConfigPatch) (fuel : Nat) :
    (callGeminiAPIConcurrent cfg t sched fuel).modelUsed = cfg.model ∧
    (∀ i d, (callGeminiAPIConcurrent cfg t sched fuel).call.delays.get? i = some d →
      d = (configAt sched cfg (i + 1)).retryDelay * 2 ^ i) ∧
    (∀ i τ, (callGeminiAPIConcurrent cfg t sched fuel).call.timeoutsUsed.get? i = some τ →
      τ = (configAt sched cfg i).timeout) := by
  have hsched : (fun j => sched (0 + j)) = sched := by
    funext j
    rw [Nat.zero_add]
  refine ⟨rfl, ?_, ?_⟩
  · intro i d hd
    have := callAuxI_delays t sched fuel 0 cfg i d hd
    rw [hsched, Nat.zero_add] at this
    exact this
  · intro i τ hτ
    have := callAuxI_timeouts t sched fuel 0 cfg i τ hτ
    rw [hsched] at this
    exact this

/-- Counterexample to C9 as stated: an `updateConfig` setting `retryDelay` to
7777 while attempt 0 of a call (config: maxRetries 1, retryDelay 1000) is in
flight changes that same call's backoff: the inserted delay is 7777 with the
update and 1000 without it. -/
theorem claim_C9_counterexample :
    (callGeminiAPIConcurrent cfgRetryOne tAll429 schedPatch0 5).call.delays = [7777] ∧
    (callGeminiAPIConcurrent cfgRetryOne tAll429 schedNone 5).call.delays = [1000] ∧
    ([7777] : List Nat) ≠ [1000] := by
  refine ⟨?_, ?_, by decide⟩
  · simp [callGeminiAPIConcurrent, callAuxI, classifyAttempt, applyPatch?, updateConfig,
      cfgRetryOne, schedPatch0, DEFAULT_CONFIG, tAll429]
  · simp [callGeminiAPIConcurrent, callAuxI, classifyAttempt, applyPatch?, updateConfig,
      cfgRetryOne, schedNone, DEFAULT_CONFIG, tAll429]

/-- Witness of the amended C9 at the scheduled-update counterexample input. -/
theorem claim_C9_config_reads_witness :
    (callGeminiAPIConcurrent cfgRetryOne tAll429 schedPatch0 5).modelUsed =
      cfgRetryOne.model ∧
    (callGeminiAPIConcurrent cfgRetryOne tAll429 schedPatch0 5).call.delays.get? 0 =
      some 7777 ∧
    7777 = (configAt schedPatch0 cfgRetryOne 1).retryDelay * 2 ^ 0 := by
  have h : (callGeminiAPIConcurrent cfgRetryOne tAll429 schedPatch0 5).call.delays.get? 0 =
      some 7777 := by
    simp [callGeminiAPIConcurrent, callAuxI, classifyAttempt, applyPatch?, updateConfig,
      cfgRetryOne, schedPatch0, DEFAULT_CONFIG, tAll429]
  obtain ⟨h1, h2, _⟩ := claim_C9_config_reads cfgRetryOne tAll429 schedPatch0 5
  exact ⟨h1, h, h2 0 7777 h⟩

/-- C7: the normalizer's text cleaning (trim outer whitespace, collapse runs
of blank lines to single newlines, collapse runs of spaces to one space) is
idempotent: for every string `x`, `clean (clean x) = clean x`. -/
theorem claim_C7_clean_idempotent (x : List Char) :
    cleanResponse (cleanResponse x) = cleanResponse x :=
  cleanResponse_eq_self (cleanResponse_headNotWs x) (cleanResponse_lastNotWs x)
    (cleanResponse_isolatedWs x) (cleanResponse_noCR x)

/-- C8: for every input string, prompt validation fails with a validation
error exactly when the prompt is empty after trimming or exceeds the maximum
length of 30,000 characters, and accepts the prompt otherwise. -/
theorem claim_C8_validate_input (p : List Char) :
    (validateInput p = .ok () ↔ (jsTrim p ≠ [] ∧ p.length ≤ 30000)) ∧
    ((∃ e, validateInput p = .error e ∧ e.code = some "VALIDATION_ERROR") ↔
      (jsTrim p = [] ∨ 30000 < p.length)) := by
  have hie : p.isEmpty = true ↔ p = [] := by cases p <;> simp
  by_cases hp : p = []
  · have h0 : validateInput p = .error (.gemini "Prompt is required and must be a string"
        (some 400) (some "VALIDATION_ERROR")) := by
      unfold validateInput
      rw [if_pos (hie.mpr hp)]
    subst hp
    refine ⟨?_, ?_, ?_⟩
    · rw [h0]
      simp [jsTrim]
    · intro _
      left
      rfl
    · intro _
      exact ⟨_, h0, rfl⟩
  · have hne : ¬ p.isEmpty = true := fun hh => hp (hie.mp hh)
    by_cases ht : jsTrim p = []
    · have h0 : validateInput p = .error (.gemini "Prompt cannot be empty" (some 400)
          (some "VALIDATION_ERROR")) := by
        unfold validateInput
        rw [if_neg hne, if_pos (by rw [ht]; rfl)]
      refine ⟨?_, ?_, ?_⟩
      · rw [h0]
        simp [ht]
      · intro _
        left
        exact ht
      · intro _
        exact ⟨_, h0, rfl⟩
    · have htlen : ¬ (jsTrim p).length = 0 := by
        intro hh
        exact ht (List.eq_nil_of_length_eq_zero hh)
      have htlt : ¬ (jsTrim p).length < 1 := by omega
      by_cases hlen : 30000 < p.length
      · have h0 : validateInput p = .error (.gemini
            "Prompt exceeds maximum length of 30,000 characters" (some 400)
            (some "VALIDATION_ERROR")) := by
          unfold validateInput
          rw [if_neg hne, if_neg htlen, if_neg htlt, if_pos hlen]
        refine ⟨?_, ?_, ?_⟩
        · rw [h0]
          constructor
          · intro hh
            cases hh
          · intro hh
            omega
        · intro _
          right
          exact hlen
        · intro _
          exact ⟨_, h0, rfl⟩
      · have h0 : validateInput p = .ok () := by
          unfold validateInput
          rw [if_neg hne, if_neg htlen, if_neg htlt, if_neg hlen]
        refine ⟨?_, ?_, ?_⟩
        · rw [h0]
          constructor
          · intro _
            exact ⟨ht, by omega⟩
          · intro _
            rfl
        · rintro ⟨e, he, _⟩
          rw [h0] at he
          cases he
        · intro hh
          rcases hh with hh | hh
          · exact absurd hh ht
          · omega

theorem isEmpty_iff_nil {l : List Char} : l.isEmpty = true ↔ l = [] := by
  cases l <;> simp

theorem jsTrim_length_le (p : List Char) : (jsTrim p).length ≤ p.length := by
  unfold jsTrim
  rw [List.length_reverse]
  calc ((p.dropWhile isWs).reverse.dropWhile isWs).length
      ≤ (p.dropWhile isWs).reverse.length := (List.dropWhile_suffix isWs).length_le
    _ = (p.dropWhile isWs).length := List.length_reverse _
    _ ≤ p.length := (List.dropWhile_suffix isWs).length_le

theorem ne_nil_of_jsTrim_ne_nil {p : List Char} (h : jsTrim p ≠ []) : p ≠ [] := by
  intro hp
  rw [hp] at h
  exact h rfl

theorem validateInput_ok {p : List Char} (h1 : jsTrim p ≠ []) (h2 : p.length ≤ 30000) :
    validateInput p = .ok () := by
  have hlen : ¬ (jsTrim p).length = 0 := fun hh => h1 (List.eq_nil_of_length_eq_zero hh)
  unfold validateInput
  rw [if_neg (fun hh => ne_nil_of_jsTrim_ne_nil h1 (isEmpty_iff_nil.mp hh)),
    if_neg hlen, if_neg (by omega), if_neg (by omega)]

theorem chatValidateInput_ok {p : List Char} (h1 : jsTrim p ≠ []) (h2 : p.length ≤ 30000) :
    chatValidateInput p = .ok () := by
  have hlen : ¬ (jsTrim p).length = 0 := fun hh => h1 (List.eq_nil_of_length_eq_zero hh)
  unfold chatValidateInput
  rw [if_neg (fun hh => ne_nil_of_jsTrim_ne_nil h1 (isEmpty_iff_nil.mp hh)),
    if_neg hlen, if_neg (by omega), if_neg (by omega)]

theorem appendMessage_ok {s : Store} {i : Nat} {r : Role} {c : List Char}
    (h1 : jsTrim c ≠ []) (h2 : (jsTrim c).length ≤ 50000) :
    appendMessage s i r c =
      .ok (⟨i, r, jsTrim c, s.nextTime⟩,
        ⟨s.threads, s.messages ++ [⟨i, r, jsTrim c, s.nextTime⟩],
          s.nextTime + 1⟩) := by
  simp only [appendMessage]
  rw [if_neg (fun hh => h1 (isEmpty_iff_nil.mp hh)), if_neg (by omega)]

theorem callGeminiAPI_success {cfg : GeminiConfig} {body : GeminiRequest}
    {t : Nat → Outcome} {b : GeminiResponse} (h : t 0 = .success b) :
    callGeminiAPI cfg body t = ⟨.ok b, 1, []⟩ := by
  unfold callGeminiAPI
  exact callAux_eq_done (by rw [h]; rfl)

theorem processGeminiResponse_noCands {cfg : GeminiConfig} {b : GeminiResponse}
    (h : b.candidates = some []) :
    processGeminiResponse cfg b =
      .error (.gemini "No candidates in response" (some 500) (some "INVALID_RESPONSE")) := by
  unfold processGeminiResponse
  rw [h]

theorem processGeminiResponse_ok {cfg : GeminiConfig} {b : GeminiResponse}
    {cand : GeminiCandidate} {rest : List GeminiCandidate} {cnt : CandContent}
    {x : List Char} {parts : List (Option (List Char))}
    (hb : b.candidates = some (cand :: rest)) (hcc : cand.content = some cnt)
    (hparts : cnt.parts = some (some x :: parts)) (hx : ¬ (jsTrim x).length = 0) :
    processGeminiResponse cfg b = .ok
      { answer := cleanResponse x
        model := cfg.model
        usage := { prompt_tokens := (b.usageMetadata.map (·.promptTokenCount)).getD 0
                   completion_tokens := (b.usageMetadata.map (·.candidatesTokenCount)).getD 0
                   total_tokens := (b.usageMetadata.map (·.totalTokenCount)).getD 0 }
        finishReason := cand.finishReason.getD "STOP" } := by
  unfold processGeminiResponse
  simp only [hb, hcc, hparts]
  rw [if_neg hx]

theorem generateResponse_err {cfg : GeminiConfig} {t : Nat → Outcome} {prompt : List Char}
    {context : List CtxMsg} {b : GeminiResponse} {e : JsError}
    (hv : validateInput prompt = .ok ()) (ht : t 0 = .success b)
    (hp : processGeminiResponse cfg b = .error e) :
    generateResponse cfg t prompt context =
      ⟨.error (handleGeminiError e), 1, [],
        some (mkRequestBody cfg (buildConversationContext prompt context))⟩ := by
  unfold generateResponse
  rw [hv]
  simp only [callGeminiAPI_success ht, hp]

theorem generateResponse_done {cfg : GeminiConfig} {t : Nat → Outcome} {prompt : List Char}
    {context : List CtxMsg} {b : GeminiResponse} {r : GeminiServiceResponse}
    (hv : validateInput prompt = .ok ()) (ht : t 0 = .success b)
    (hp : processGeminiResponse cfg b = .ok r) :
    generateResponse cfg t prompt context =
      ⟨.ok r, 1, [],
        some (mkRequestBody cfg (buildConversationContext prompt context))⟩ := by
  unfold generateResponse
  rw [hv]
  simp only [callGeminiAPI_success ht, hp]

theorem getChatResponse_of_generate_err {cfg : GeminiConfig} {t : Nat → Outcome}
    {prompt : List Char} {context : List CtxMsg} {e : JsError} {n : Nat} {dl : List Nat}
    {sb : Option GeminiRequest}
    (hcv : chatValidateInput prompt = .ok ())
    (hg : generateResponse cfg t prompt context = ⟨.error e, n, dl, sb⟩) :
    getChatResponse cfg t prompt context = ⟨.error (handleChatError e), n, dl, sb⟩ := by
  unfold getChatResponse
  rw [hcv, hg]

theorem getChatResponse_of_generate_done {cfg : GeminiConfig} {t : Nat → Outcome}
    {prompt : List Char} {context : List CtxMsg} {r : GeminiServiceResponse} {n : Nat}
    {dl : List Nat} {sb : Option GeminiRequest}
    (hcv : chatValidateInput prompt = .ok ())
    (hg : generateResponse cfg t prompt context = ⟨.ok r, n, dl, sb⟩) :
    getChatResponse cfg t prompt context =
      ⟨.ok ⟨r.answer, r.model, r.usage, r.finishReason⟩, n, dl, sb⟩ := by
  unfold getChatResponse
  rw [hcv, hg]

theorem handleChatError_invalidResp (m : String) :
    handleChatError (.gemini m (some 500) (some "INVALID_RESPONSE")) = m := rfl

/-- C1 corrected (amended claim): when generation or normalization fails — in
particular when the provider returns HTTP 200 with an empty candidates list —
`sendMessageToThread` terminates as a typed failure (the normalizer's
invalid-response error surfaced to the caller), no assistant message is
persisted, and the thread document is unchanged; but the user message
(trimmed) has already been persisted before the provider call, because the
source saves it before invoking `getChatResponse`. -/
theorem claim_C1_failure_persists_user (cfg : GeminiConfig) (t : Nat → Outcome) (s : Store)
    (uid tid : Nat) (content : List Char) (th : Thread) (b : GeminiResponse)
    (hfind : s.threads.find? (fun th2 => th2.id == tid && th2.userId == uid) = some th)
    (h1 : jsTrim content ≠ []) (h2 : content.length ≤ 30000)
    (ht : t 0 = .success b) (hc : b.candidates = some []) :
    (sendMessageToThread cfg t s uid tid content).result =
      .error "No candidates in response" ∧
    (sendMessageToThread cfg t s uid tid content).store.messages =
      s.messages ++ [⟨tid, .user, jsTrim content, s.nextTime⟩] ∧
    (sendMessageToThread cfg t s uid tid content).store.threads = s.threads ∧
    (sendMessageToThread cfg t s uid tid content).providerAttempts = 1 ∧
    (∀ m ∈ (sendMessageToThread cfg t s uid tid content).store.messages,
      m.role = .assistant → m ∈ s.messages) := by
  have h50 : (jsTrim content).length ≤ 50000 :=
    le_trans (jsTrim_length_le content) (by omega)
  have happ := appendMessage_ok (s := s) (i := tid) (r := .user)
    (c := jsTrim content) (by rw [jsTrim_idem]; exact h1)
    (by rw [jsTrim_idem]; exact h50)
  rw [jsTrim_idem] at happ
  have hgen : ∀ ctx, generateResponse cfg t content ctx =
      ⟨.error (.gemini "No candidates in response" (some 500) (some "INVALID_RESPONSE")), 1, [],
        some (mkRequestBody cfg (buildConversationContext content ctx))⟩ := by
    intro ctx
    exact generateResponse_err (validateInput_ok h1 h2) ht (processGeminiResponse_noCands hc)
  have hai : ∀ ctx, getChatResponse cfg t content ctx =
      ⟨.error "No candidates in response", 1, [],
        some (mkRequestBody cfg (buildConversationContext content ctx))⟩ := by
    intro ctx
    have hh := getChatResponse_of_generate_err (chatValidateInput_ok h1 h2) (hgen ctx)
    rwa [handleChatError_invalidResp] at hh
  unfold sendMessageToThread
  rw [hfind]
  simp only [happ, hai]
  refine ⟨trivial, trivial, trivial, trivial, ?_⟩
  intro m hm hrole
  rcases List.mem_append.mp hm with h | h
  · exact h
  · have hmm : m = ⟨tid, .user, jsTrim content, s.nextTime⟩ := by simpa using h
    rw [hmm] at hrole
    simp at hrole

/-- Counterexample to C1 as stated: a provider answering 200 with
`candidates: []` makes the call fail as a typed failure, yet a user message
has been persisted for that request. -/
theorem claim_C1_counterexample :
    (sendMessageToThread DEFAULT_CONFIG tEmptyCands storeOneThread 7 1 ['h', 'i']).result =
      .error "No candidates in response" ∧
    (sendMessageToThread DEFAULT_CONFIG tEmptyCands storeOneThread 7 1
        ['h', 'i']).store.messages = [⟨1, .user, ['h', 'i'], 1⟩] := by
  constructor <;>
    simp [sendMessageToThread, storeOneThread, threadFix, tEmptyCands, bodyNoCands,
      appendMessage, getChatResponse, chatValidateInput, generateResponse, validateInput,
      callGeminiAPI, callAux, classifyAttempt, processGeminiResponse, handleGeminiError,
      handleChatError, jsTrim, isWs, sortByCreatedAt, mkRequestBody, buildConversationContext,
      JsError.code, JsError.message, List.dropWhile, List.takeWhile, List.find?]

/-- Witness of the amended C1 at a concrete store, thread and provider. -/
theorem claim_C1_failure_persists_user_witness :
    (sendMessageToThread DEFAULT_CONFIG tEmptyCands storeOneThread 7 1 ['q']).result =
      .error "No candidates in response" ∧
    (sendMessageToThread DEFAULT_CONFIG tEmptyCands storeOneThread 7 1 ['q']).store.messages =
      storeOneThread.messages ++ [⟨1, .user, jsTrim ['q'], storeOneThread.nextTime⟩] ∧
    (sendMessageToThread DEFAULT_CONFIG tEmptyCands storeOneThread 7 1 ['q']).store.threads =
      storeOneThread.threads ∧
    (sendMessageToThread DEFAULT_CONFIG tEmptyCands storeOneThread 7 1
        ['q']).providerAttempts = 1 := by
  obtain ⟨r1, r2, r3, r4, _⟩ := claim_C1_failure_persists_user DEFAULT_CONFIG tEmptyCands
    storeOneThread 7 1 ['q'] threadFix bodyNoCands rfl (by decide) (by decide) rfl rfl
  exact ⟨r1, r2, r3, r4⟩

/-- C6: a request whose thread is absent and a request whose thread exists but
is owned by a different user fail with the same observable outcome — the
not-found error, an unchanged store, no context load, no provider HTTP call
and no request body — so thread existence is never revealed to non-owners. -/
theorem claim_C6_notfound_masking (cfg : GeminiConfig) (t1 t2 : Nat → Outcome)
    (s1 s2 : Store) (uid tid1 tid2 : Nat) (c1 c2 : List Char)
    (habsent : ∀ th ∈ s1.threads, th.id ≠ tid1)
    (hexists : ∃ th ∈ s2.threads, th.id = tid2)
    (hmismatch : ∀ th ∈ s2.threads, th.id = tid2 → th.userId ≠ uid) :
    (sendMessageToThread cfg t1 s1 uid tid1 c1).result =
      .error "Thread not found or access denied" ∧
    (sendMessageToThread cfg t2 s2 uid tid2 c2).result =
      .error "Thread not found or access denied" ∧
    (sendMessageToThread cfg t1 s1 uid tid1 c1).result =
      (sendMessageToThread cfg t2 s2 uid tid2 c2).result ∧
    (sendMessageToThread cfg t1 s1 uid tid1 c1).store = s1 ∧
    (sendMessageToThread cfg t2 s2 uid tid2 c2).store = s2 ∧
    (sendMessageToThread cfg t1 s1 uid tid1 c1).contextLoads = 0 ∧
    (sendMessageToThread cfg t2 s2 uid tid2 c2).contextLoads = 0 ∧
    (sendMessageToThread cfg t1 s1 uid tid1 c1).providerAttempts = 0 ∧
    (sendMessageToThread cfg t2 s2 uid tid2 c2).providerAttempts = 0 ∧
    (sendMessageToThread cfg t1 s1 uid tid1 c1).sentBody = none ∧
    (sendMessageToThread cfg t2 s2 uid tid2 c2).sentBody = none := by
  have hf1 : s1.threads.find? (fun th2 => th2.id == tid1 && th2.userId == uid) = none := by
    rw [List.find?_eq_none]
    intro th hth
    simp only [Bool.and_eq_true, beq_iff_eq, not_and]
    intro hid
    exact absurd hid (habsent th hth)
  have hf2 : s2.threads.find? (fun th2 => th2.id == tid2 && th2.userId == uid) = none := by
    rw [List.find?_eq_none]
    intro th hth
    simp only [Bool.and_eq_true, beq_iff_eq, not_and]
    intro hid
    exact hmismatch th hth hid
  have e1 : sendMessageToThread cfg t1 s1 uid tid1 c1 =
      ⟨.error "Thread not found or access denied", s1, 0, 0, none⟩ := by
    unfold sendMessageToThread
    rw [hf1]
  have e2 : sendMessageToThread cfg t2 s2 uid tid2 c2 =
      ⟨.error "Thread not found or access denied", s2, 0, 0, none⟩ := by
    unfold sendMessageToThread
    rw [hf2]
  rw [e1, e2]
  exact ⟨rfl, rfl, rfl, rfl, rfl, rfl, rfl, rfl, rfl, rfl, rfl⟩

/-- Witness of C6: thread 2 is absent from the one-thread store, and thread 1
of that store is owned by user 7, not by the requesting user 8. -/
theorem claim_C6_notfound_masking_witness :
    (sendMessageToThread DEFAULT_CONFIG tEmptyCands storeOneThread 8 2 ['q']).result =
      .error "Thread not found or access denied" ∧
    (sendMessageToThread DEFAULT_CONFIG tEmptyCands storeOneThread 8 1 ['q']).result =
      .error "Thread not found or access denied" ∧
    (sendMessageToThread DEFAULT_CONFIG tEmptyCands storeOneThread 8 2 ['q']).store =
      storeOneThread ∧
    (sendMessageToThread DEFAULT_CONFIG tEmptyCands storeOneThread 8 1 ['q']).store =
      storeOneThread ∧
    (sendMessageToThread DEFAULT_CONFIG tEmptyCands storeOneThread 8 2
        ['q']).providerAttempts = 0 ∧
    (sendMessageToThread DEFAULT_CONFIG tEmptyCands storeOneThread 8 1
        ['q']).providerAttempts = 0 ∧
    (sendMessageToThread DEFAULT_CONFIG tEmptyCands storeOneThread 8 2 ['q']).contextLoads =
      0 ∧
    (sendMessageToThread DEFAULT_CONFIG tEmptyCands storeOneThread 8 1 ['q']).contextLoads =
      0 := by
  obtain ⟨r1, r2, _, r4, r5, r6, r7, r8, r9, _, _⟩ :=
    claim_C6_notfound_masking DEFAULT_CONFIG tEmptyCands tEmptyCands storeOneThread
      storeOneThread 8 2 1 ['q'] ['q'] (by decide) ⟨threadFix, by decide, rfl⟩ (by decide)
  exact ⟨r1, r2, r4, r5, r8, r9, r6, r7⟩

/-- C2 (code bug): the Mongo query sorts by ascending `createdAt` and then
applies `limit 10`, so for an eleven-message history the context handed to
the provider consists of the ten OLDEST prior messages (turns for messages
0..9) followed by the trimmed prompt — not, as the claim and the code's own
comment ("last 10 messages") require, the ten most recent (messages 1..10).
This theorem evaluates the code at the failing input and shows both facts. -/
theorem claim_C2_oldest_ten_sent :
    ((sendMessageToThread DEFAULT_CONFIG tEmptyCands storeEleven 7 1 ['q']).sentBody.map
        fun bd => bd.contents) =
      some ((((List.range 10).map fun i =>
          (⟨"user", [[Char.ofNat (48 + i)]]⟩ : GeminiRequestContent))) ++
        [⟨"user", [['q']]⟩]) ∧
    ¬ ((sendMessageToThread DEFAULT_CONFIG tEmptyCands storeEleven 7 1 ['q']).sentBody.map
        fun bd => bd.contents) =
      some ((((List.range 10).map fun i =>
          (⟨"user", [[Char.ofNat (49 + i)]]⟩ : GeminiRequestContent))) ++
        [⟨"user", [['q']]⟩]) := by
  have hfind : storeEleven.threads.find? (fun th2 => th2.id == 1 && th2.userId == 7) =
      some threadFix := rfl
  have happ := appendMessage_ok (s := storeEleven) (i := 1) (r := .user)
    (c := jsTrim ['q']) (by decide) (by decide)
  have hgen : ∀ ctx, generateResponse DEFAULT_CONFIG tEmptyCands ['q'] ctx =
      ⟨.error (.gemini "No candidates in response" (some 500) (some "INVALID_RESPONSE")), 1, [],
        some (mkRequestBody DEFAULT_CONFIG (buildConversationContext ['q'] ctx))⟩ :=
    fun ctx => generateResponse_err (validateInput_ok (by decide) (by decide)) rfl
      (processGeminiResponse_noCands rfl)
  have hai : ∀ ctx, getChatResponse DEFAULT_CONFIG tEmptyCands ['q'] ctx =
      ⟨.error "No candidates in response", 1, [],
        some (mkRequestBody DEFAULT_CONFIG (buildConversationContext ['q'] ctx))⟩ := by
    intro ctx
    have hh := getChatResponse_of_generate_err
      (chatValidateInput_ok (by decide) (by decide)) (hgen ctx)
    rwa [handleChatError_invalidResp] at hh
  have hsend : (sendMessageToThread DEFAULT_CONFIG tEmptyCands storeEleven 7 1
        ['q']).sentBody =
      some (mkRequestBody DEFAULT_CONFIG (buildConversationContext ['q']
        (((sortByCreatedAt (storeEleven.messages.filter fun m =>
          m.threadId == 1)).take 10).map fun m => CtxMsg.mk m.role m.content))) := by
    unfold sendMessageToThread
    rw [hfind]
    simp only [happ, hai]
  rw [hsend]
  constructor
  · decide
  · decide

/-- C10: every message persisted by a successful `sendMessageToThread` has
content with no leading or trailing whitespace: the stored user message
content equals the raw request content after trimming, the stored assistant
message content equals the normalizer's cleaned output (which is itself
trim-fixed), and the schema's trim-on-save changes neither. -/
theorem claim_C10_trimmed_content (cfg : GeminiConfig) (t : Nat → Outcome) (s : Store)
    (uid tid : Nat) (content : List Char) (th : Thread) (b : GeminiResponse)
    (cand : GeminiCandidate) (rest : List GeminiCandidate) (cnt : CandContent)
    (x : List Char) (parts : List (Option (List Char)))
    (hfind : s.threads.find? (fun th2 => th2.id == tid && th2.userId == uid) = some th)
    (h1 : jsTrim content ≠ []) (h2 : content.length ≤ 30000)
    (ht : t 0 = .success b) (hb : b.candidates = some (cand :: rest))
    (hcc : cand.content = some cnt) (hparts : cnt.parts = some (some x :: parts))
    (hx : jsTrim x ≠ []) (hxlen : (cleanResponse x).length ≤ 50000) :
    ∃ um am, (sendMessageToThread cfg t s uid tid content).result = .ok (um, am) ∧
      um.content = jsTrim content ∧
      am.content = cleanResponse x ∧
      jsTrim um.content = um.content ∧
      jsTrim am.content = am.content ∧
      (sendMessageToThread cfg t s uid tid content).store.messages =
        s.messages ++ [um, am] := by
  have h50 : (jsTrim content).length ≤ 50000 :=
    le_trans (jsTrim_length_le content) (by omega)
  have happ := appendMessage_ok (s := s) (i := tid) (r := .user)
    (c := jsTrim content) (by rw [jsTrim_idem]; exact h1)
    (by rw [jsTrim_idem]; exact h50)
  rw [jsTrim_idem] at happ
  have hxne : ¬ (jsTrim x).length = 0 := fun hh => hx (List.eq_nil_of_length_eq_zero hh)
  have hp := @processGeminiResponse_ok cfg b cand rest cnt x parts hb hcc hparts hxne
  have hai : ∀ ctx, getChatResponse cfg t content ctx =
      ⟨.ok ⟨cleanResponse x, cfg.model,
        { prompt_tokens := (b.usageMetadata.map (·.promptTokenCount)).getD 0
          completion_tokens := (b.usageMetadata.map (·.candidatesTokenCount)).getD 0
          total_tokens := (b.usageMetadata.map (·.totalTokenCount)).getD 0 },
        cand.finishReason.getD "STOP"⟩, 1, [],
        some (mkRequestBody cfg (buildConversationContext content ctx))⟩ := by
    intro ctx
    exact getChatResponse_of_generate_done (chatValidateInput_ok h1 h2)
      (generateResponse_done (validateInput_ok h1 h2) ht hp)
  have happ2 := appendMessage_ok
    (s := ⟨s.threads, s.messages ++ [⟨tid, .user, jsTrim content, s.nextTime⟩],
      s.nextTime + 1⟩)
    (i := tid) (r := .assistant) (c := cleanResponse x)
    (by rw [jsTrim_cleanResponse]; exact cleanResponse_ne_nil hx)
    (by rw [jsTrim_cleanResponse]; exact hxlen)
  rw [jsTrim_cleanResponse] at happ2
  refine ⟨⟨tid, .user, jsTrim content, s.nextTime⟩,
    ⟨tid, .assistant, cleanResponse x, s.nextTime + 1⟩, ?_⟩
  unfold sendMessageToThread
  rw [hfind]
  simp only [happ, hai, happ2]
  refine ⟨trivial, trivial, trivial, jsTrim_idem content, jsTrim_cleanResponse x, ?_⟩
  simp [List.append_assoc]

/-- Witness of C10 at a concrete store, thread and provider whose candidate
text needs cleaning. -/
theorem claim_C10_trimmed_content_witness :
    ∃ um am,
      (sendMessageToThread DEFAULT_CONFIG tOneCand storeOneThread 7 1
        [' ', 'q', ' ']).result = .ok (um, am) ∧
      um.content = jsTrim [' ', 'q', ' '] ∧
      am.content = cleanResponse [' ', 'o', 'k'] ∧
      jsTrim um.content = um.content ∧
      jsTrim am.content = am.content ∧
      (sendMessageToThread DEFAULT_CONFIG tOneCand storeOneThread 7 1
        [' ', 'q', ' ']).store.messages = storeOneThread.messages ++ [um, am] :=
  claim_C10_trimmed_content DEFAULT_CONFIG tOneCand storeOneThread 7 1 [' ', 'q', ' ']
    threadFix bodyOneCand
    ⟨some ⟨some [some [' ', 'o', 'k']], some "model"⟩, some "STOP"⟩ []
    ⟨some [some [' ', 'o', 'k']], some "model"⟩ [' ', 'o', 'k'] []
    rfl (by decide) (by decide) rfl rfl rfl rfl (by decide)
    (by simp [cleanResponse, jsTrim, stripLeadNl, collapseNl, collapseSp, matchLeadNl,
      afterLastCrlf, List.dropWhile, List.takeWhile, isWs, isCRLF, isLineTerm])

end AgentCraft
